import Mathlib

/-!
Verification development for the `AdvancedRoutePlanner` trip-planning core
(`src/route-planner.ts`) of the olamap-mcp-server repository.

The pipeline is embedded shallowly:
* JS numbers appearing as minute counts are modelled as `ℕ`/`ℤ`; fractional
  quantities (kilometres, priority-weighted travel times, provider durations in
  seconds) as `ℚ`.
* The platform `Math` library (trigonometric functions used by the haversine
  formula, which the source evaluates in floating point) and the platform
  `Date` used by `addDaysToDate` are modelled as an explicit parameter record
  `MathPrims`; the formulas combining them are transcribed literally.
* The three I/O collaborators (geocoding, place details, distance matrix) are
  modelled as function parameters returning `Except Unit _`, where
  `Except.error` stands for a rejected promise (which the source catches).
* The wall-clock coordinate strings `"lat,lng"` round-trip through
  `${lat},${lng}` / `split(',')` in the source; they are modelled directly as
  pairs `ℚ × ℚ`.
-/

namespace OlaMap

/-- Priority values: `priority ∈ {high, medium, low}` from the `VisitLocation` interface. -/
inductive Priority where
  | high
  | medium
  | low
deriving DecidableEq, Repr, Inhabited

/-- Vehicle `type` field: `'car' | 'bike' | 'walking' | 'public_transport'`. -/
inductive VehicleType where
  | car
  | bike
  | walking
  | public_transport
deriving DecidableEq, Repr, Inhabited

/-- Interface `VisitLocation` from `route-planner.ts`.  `coordinates` is the parsed
`"lat,lng"` pair; `visit_duration_minutes` is kept as a natural number of
minutes (the input schema requires at least one minute). -/
structure VisitLocation where
  name : String
  address : Option String := none
  coordinates : Option (ℚ × ℚ) := none
  place_id : Option String := none
  visit_duration_minutes : ℕ
  preferred_time : Option String := none
  priority : Option Priority := none
  notes : Option String := none
deriving DecidableEq, Repr, Inhabited

/-- Interface `Vehicle` from `route-planner.ts`. -/
structure Vehicle where
  type : VehicleType
  average_speed_kmh : Option ℚ := none
  fuel_efficiency : Option ℚ := none
  capacity : Option ℚ := none
deriving DecidableEq, Repr, Inhabited

/-- Interface `TripConstraints` from `route-planner.ts`; the two times are `"HH:MM"`
strings exactly as in the source. -/
structure TripConstraints where
  start_time : String
  end_time : String
  start_location : Option String := none
  end_location : Option String := none
  max_travel_time_minutes : Option ℚ := none
  max_total_distance_km : Option ℚ := none
  break_duration_minutes : Option ℚ := none
  break_after_hours : Option ℚ := none
deriving DecidableEq, Repr, Inhabited

/-- Interface `RouteSegment` from `route-planner.ts` (`from`/`to` are Lean keywords, so
the fields are called `from_loc`/`to_loc`). -/
structure RouteSegment where
  from_loc : VisitLocation
  to_loc : VisitLocation
  distance_km : ℚ
  travel_time_minutes : ℤ
  departure_time : String
  arrival_time : String
  polyline : Option String := none
deriving DecidableEq, Repr, Inhabited

/-- Interface `DayPlan` from `route-planner.ts`. -/
structure DayPlan where
  day : ℕ
  date : Option String
  locations : List VisitLocation
  route_segments : List RouteSegment
  total_distance_km : ℚ
  total_travel_time_minutes : ℤ
  total_visit_time_minutes : ℕ
  start_time : String
  end_time : String
  feasible : Bool
  issues : Option (List String)
  suggestions : Option (List String)
deriving DecidableEq, Repr, Inhabited

/-- Interface `TripPlan` from `route-planner.ts`. -/
structure TripPlan where
  feasible_in_single_day : Bool
  recommended_days : ℕ
  day_plans : List DayPlan
  total_distance_km : ℚ
  total_time_hours : ℚ
  unvisited_locations : List VisitLocation
  optimization_notes : List String
  alternative_suggestions : List String
deriving DecidableEq, Repr, Inhabited

/-- One entry of the array produced by `calculateSchedule`. -/
structure SchedItem where
  location : VisitLocation
  arrival : String
  departure : String
  travel_time : ℤ
deriving DecidableEq, Repr, Inhabited

/-- One element of a distance-matrix response row (`element.distance`,
`element.duration`); `none` models an absent (`undefined`) field, the
`duration` is in seconds. -/
structure DMElement where
  distance : Option ℚ := none
  duration : Option ℚ := none
deriving DecidableEq, Repr, Inhabited

/-- One row of a distance-matrix response. -/
structure DMRow where
  elements : List DMElement
deriving DecidableEq, Repr, Inhabited

/-- The distance-matrix response; `rows = none` models an `undefined` `rows`
field (the source guards with `if (result.rows)`). -/
structure DMResponse where
  rows : Option (List DMRow) := none
deriving DecidableEq, Repr, Inhabited

/-- The distance-matrix collaborator: coordinates and a travel-mode string in,
a response or a thrown error out. -/
def DMProvider : Type := List (ℚ × ℚ) → String → Except Unit DMResponse

/-- The geocoding collaborator, reduced to the data the planner reads:
the list of `geocodingResults` coordinate pairs (`none` models a response
without a `geocodingResults` array). -/
def GeoProvider : Type := String → Except Unit (Option (List (ℚ × ℚ)))

/-- The place-details collaborator, reduced to the coordinate the planner
reads (`none` models a response without `result.geometry`). -/
def PDProvider : Type := String → Except Unit (Option (ℚ × ℚ))

/-- Platform primitives used by the planner: the floating-point `Math`
functions entering `calculateHaversineDistance`, and the `Date`-based
`addDaysToDate`.  They are parameters of the embedding because the source
evaluates them in IEEE floating point. -/
structure MathPrims where
  sin : ℚ → ℚ
  cos : ℚ → ℚ
  sqrt : ℚ → ℚ
  atan2 : ℚ → ℚ → ℚ
  pi : ℚ
  addDaysToDate : String → ℕ → String

/-- Models `Math.ceil` on rationals, in a form the kernel can evaluate. -/
def rceil (q : ℚ) : ℤ := -((-q).num / ((-q).den : ℤ))

/-- Models `Math.round` on rationals (round half towards positive infinity), in a
form the kernel can evaluate. -/
def rround (q : ℚ) : ℤ := (q + 1/2).num / ((q + 1/2).den : ℤ)

/-- Splits a character list at every occurrence of `sep`; models JS
`String.split(sep)` for one-character separators. -/
def splitChar (sep : Char) : List Char → List (List Char)
  | [] => [[]]
  | c :: cs =>
    match splitChar sep cs with
    | [] => if c = sep then [[], []] else [[c]]
    | g :: gs => if c = sep then [] :: g :: gs else (c :: g) :: gs

/-- Numeric value of a decimal digit list; models JS `Number(...)` on the
digit strings produced by the `HH:MM` schema pattern (other inputs, which
`Number` turns into `NaN`, are mapped to `0` and are unreachable through the
validated entry point). -/
def digitsToNat : List Char → ℕ → ℕ
  | [], acc => acc
  | c :: cs, acc => digitsToNat cs (acc * 10 + (c.toNat - '0'.toNat))

/-- Function `parseTime` from `route-planner.ts`:
`const [hours, minutes] = timeStr.split(':').map(Number); return hours * 60 + minutes;` -/
def parseTime (timeStr : String) : ℕ :=
  match splitChar ':' timeStr.data with
  | h :: m :: _ => digitsToNat h 0 * 60 + digitsToNat m 0
  | [h] => digitsToNat h 0 * 60
  | [] => 0

/-- JS `String.prototype.padStart(2, '0')`. -/
def padStart2 (s : String) : String := if s.length < 2 then "0" ++ s else s

/-- Function `formatTime` from `route-planner.ts`:
`Math.floor(minutes / 60)` and `minutes % 60`, each padded to two digits.
`Int.fdiv` is JS `Math.floor` of the division, `Int.tmod` is the JS `%`. -/
def formatTime (minutes : ℤ) : String :=
  padStart2 (toString (Int.fdiv minutes 60)) ++ ":" ++ padStart2 (toString (Int.tmod minutes 60))

/-- Function `getRouteMode` from `route-planner.ts`. -/
def getRouteMode : VehicleType → String
  | .car => "driving"
  | .bike => "cycling"
  | .walking => "walking"
  | .public_transport => "transit"

/-- Function `getDefaultSpeed` from `route-planner.ts` (km/h). -/
def getDefaultSpeed : VehicleType → ℚ
  | .car => 40
  | .bike => 15
  | .walking => 5
  | .public_transport => 25

/-- Function `calculateHaversineDistance` from `route-planner.ts`, with the `Math`
primitives supplied by `M`. -/
def calculateHaversineDistance (M : MathPrims) (lat1 lng1 lat2 lng2 : ℚ) : ℚ :=
  let R : ℚ := 6371
  let dLat := (lat2 - lat1) * M.pi / 180
  let dLng := (lng2 - lng1) * M.pi / 180
  let a := M.sin (dLat / 2) * M.sin (dLat / 2) +
    M.cos (lat1 * M.pi / 180) * M.cos (lat2 * M.pi / 180) *
    M.sin (dLng / 2) * M.sin (dLng / 2)
  let c := 2 * M.atan2 (M.sqrt a) (M.sqrt (1 - a))
  R * c

/-- Function `estimateDistance` from `route-planner.ts`: haversine distance between two
locations, `0` when either has no coordinates. -/
def estimateDistance (M : MathPrims) (loc1 loc2 : VisitLocation) : ℚ :=
  match loc1.coordinates, loc2.coordinates with
  | some (lat1, lng1), some (lat2, lng2) => calculateHaversineDistance M lat1 lng1 lat2 lng2
  | _, _ => 0

/-- Matrix lookup `m[i][j]`.  Every access made by the pipeline stays inside
the square matrix produced by `getDistanceMatrix`/`estimateDistanceMatrix`, so
the default is never observed there. -/
def matrixAt (m : List (List ℤ)) (i j : ℕ) : ℤ := (m.getD i []).getD j 0

/-- The effective average speed used by the fallback estimator:
`vehicle.average_speed_kmh || this.getDefaultSpeed(vehicle.type)`
(JS `||`, so an explicit `0` also falls back to the default). -/
def effectiveSpeed (vehicle : Vehicle) : ℚ :=
  match vehicle.average_speed_kmh with
  | some s => if s = 0 then getDefaultSpeed vehicle.type else s
  | none => getDefaultSpeed vehicle.type

/-- Function `estimateDistanceMatrix` from `route-planner.ts`: `0` on the diagonal,
otherwise `Math.ceil((haversine / avgSpeed) * 60)` minutes.  The non-null
assertion `loc.coordinates!` of the source is modelled by `Option.getD`;
all callers pass resolved locations. -/
def estimateDistanceMatrix (M : MathPrims) (locations : List VisitLocation)
    (vehicle : Vehicle) : List (List ℤ) :=
  let avgSpeed := effectiveSpeed vehicle
  locations.enum.map fun (i, li) =>
    locations.enum.map fun (j, lj) =>
      if i = j then 0
      else
        let p1 := li.coordinates.getD (0, 0)
        let p2 := lj.coordinates.getD (0, 0)
        let distance := calculateHaversineDistance M p1.1 p1.2 p2.1 p2.2
        rceil (distance / avgSpeed * 60)

/-- Conversion of one distance-matrix element to minutes:
`element.duration ? Math.ceil(element.duration / 60) : 999999`
(`undefined` and `0` are both falsy). -/
def durToMinutes (duration : Option ℚ) : ℤ :=
  match duration with
  | some d => if d = 0 then 999999 else rceil (d / 60)
  | none => 999999

/-- Function `getDistanceMatrix` from `route-planner.ts`: one provider call; on success
the durations are converted to minutes, on a thrown error the haversine
estimator is used instead. -/
def getDistanceMatrix (dm : DMProvider) (M : MathPrims)
    (locations : List VisitLocation) (vehicle : Vehicle) : List (List ℤ) :=
  let coordinates := locations.map fun loc => loc.coordinates.getD (0, 0)
  let mode := getRouteMode vehicle.type
  match dm coordinates mode with
  | .ok result =>
    match result.rows with
    | some rows => rows.map fun row => row.elements.map fun e => durToMinutes e.duration
    | none => []
  | .error _ => estimateDistanceMatrix M locations vehicle

/-- The geocoding block of `resolveLocations`: call the collaborator, take
the first element of `geocodingResults` when the call succeeds and the list is
non-empty; a thrown call (caught with `console.warn`) or an absent or empty
result list yields nothing. -/
def geoLookup (g : GeoProvider) (addr : String) : Option (ℚ × ℚ) :=
  match g addr with
  | .ok (some (r :: _)) => some r
  | _ => none

/-- The place-details block of `resolveLocations`: call the collaborator and
take `result.geometry.location` when present; a thrown call yields nothing. -/
def pdLookup (p : PDProvider) (pid : String) : Option (ℚ × ℚ) :=
  match p pid with
  | .ok (some r) => some r
  | _ => none

/-- Resolution of a single location, following `resolveLocations` in
`route-planner.ts`: use `coordinates` if present; else geocode the `address`
and take the first result; else fetch place details for `place_id`; else throw
`Could not resolve coordinates for location: <name>`. -/
def resolveLocation (g : GeoProvider) (p : PDProvider) (location : VisitLocation) :
    Except String VisitLocation :=
  let c1 :=
    match location.coordinates, location.address with
    | none, some addr => geoLookup g addr
    | _, _ => location.coordinates
  let c2 :=
    match c1, location.place_id with
    | none, some pid => pdLookup p pid
    | _, _ => c1
  match c2 with
  | none => .error ("Could not resolve coordinates for location: " ++ location.name)
  | some c => .ok { location with coordinates := some c }

/-- Function `resolveLocations` from `route-planner.ts`: sequential resolution, the
first failure aborts the whole loop. -/
def resolveLocations (g : GeoProvider) (p : PDProvider) :
    List VisitLocation → Except String (List VisitLocation)
  | [] => .ok []
  | location :: rest =>
    match resolveLocation g p location with
    | .error e => .error e
    | .ok r =>
      match resolveLocations g p rest with
      | .error e => .error e
      | .ok rs => .ok (r :: rs)

/-- The priority rank used by the sort in `optimizeRoute`:
`priorityOrder[a.priority || 'medium']` with `{high: 3, medium: 2, low: 1}`. -/
def priorityRank : Option Priority → ℕ
  | some .high => 3
  | some .medium => 2
  | some .low => 1
  | none => 2

/-- The priority bonus used by the greedy selection in `optimizeRoute`:
`p === 'high' ? 0.8 : p === 'medium' ? 0.9 : 1.0`.  Note that an unset
priority falls through to `1.0`, unlike the sort above. -/
def priorityBonus : Option Priority → ℚ
  | some .high => 0.8
  | some .medium => 0.9
  | _ => 1.0

/-- Stable insertion of an element into a list sorted by descending
`priorityRank`; the element goes in front of the first entry whose rank is not
larger.  `ILoc` entries pair each location with its index in the resolved
input list, which is what `locations.indexOf` recovers in the source (all
array members are distinct freshly-spread objects). -/
def insertByRank (x : ℕ × VisitLocation) :
    List (ℕ × VisitLocation) → List (ℕ × VisitLocation)
  | [] => [x]
  | y :: ys =>
    if priorityRank x.2.priority < priorityRank y.2.priority then y :: insertByRank x ys
    else x :: y :: ys

/-- The stable descending-priority sort at the head of `optimizeRoute`
(`unvisited.sort((a, b) => bPriority - aPriority)`; JS `Array.prototype.sort`
is stable, and a stable sort for a total rank preorder is unique, so an
insertion sort is extensionally the same function). -/
def sortByPriority (l : List (ℕ × VisitLocation)) : List (ℕ × VisitLocation) :=
  l.foldr insertByRank []

/-- The combined "sorted descending by rank, ties kept in input order"
relation characterizing the stable descending sort. -/
def StableRel (a b : ℕ × VisitLocation) : Prop :=
  priorityRank b.2.priority < priorityRank a.2.priority ∨
    (priorityRank b.2.priority = priorityRank a.2.priority ∧ a.1 < b.1)

/-- The effective travel time of a candidate in the greedy selection:
`travelTime * priorityBonus`, with the matrix looked up at the original
indices (`locations.indexOf`). -/
def effTime (m : List (List ℤ)) (curIdx : ℕ) (cand : ℕ × VisitLocation) : ℚ :=
  (matrixAt m curIdx cand.1 : ℚ) * priorityBonus cand.2.priority

/-- Position of the first strict minimizer of `eff` in `l`: the source scans
`unvisited` left to right starting from `shortestTime = Infinity`, keeping the
first strict improvement, which selects the leftmost minimum. -/
def selectPos (eff : α → ℚ) : List α → ℕ
  | [] => 0
  | x :: xs =>
    let q := selectPos eff xs
    match xs.get? q with
    | some y => if eff y < eff x then q + 1 else 0
    | none => 0

/-- The greedy loop of `optimizeRoute`: while locations remain unvisited, pick
the one minimizing the effective travel time from the previous pick and append
it. -/
def greedyGo (m : List (List ℤ)) (curIdx : ℕ) :
    List (ℕ × VisitLocation) → List (ℕ × VisitLocation)
  | [] => []
  | x :: xs =>
    let l := x :: xs
    let p := selectPos (effTime m curIdx) l
    let chosen := l.getD p x
    chosen :: greedyGo m chosen.1 (l.eraseIdx p)
  termination_by l => l.length
  decreasing_by
    have H : ∀ (ys : List (ℕ × VisitLocation)) (y : ℕ × VisitLocation),
        selectPos (effTime m curIdx) (y :: ys) < (y :: ys).length := by
      intro ys
      induction ys with
      | nil => intro y; simp [selectPos]
      | cons z zs ih =>
        intro y
        rw [selectPos]
        rw [List.get?_eq_getElem?, List.getElem?_eq_getElem (by simpa using ih z)]
        simp only []
        split
        · simpa using Nat.succ_lt_succ (by simpa using ih z)
        · simp
    simp only [List.length_eraseIdx, if_pos (H _ _)]
    exact Nat.sub_lt (Nat.succ_pos _) Nat.one_pos

/-- Function `optimizeRoute` from `route-planner.ts`: stable sort by descending
priority, seed with the first element, then greedy nearest-neighbour selection
weighted by `priorityBonus`.  The `constraints` parameter is accepted but, as
in the source, unused. -/
def optimizeRoute (locations : List VisitLocation) (m : List (List ℤ))
    (_constraints : TripConstraints) : List VisitLocation :=
  match sortByPriority locations.enum with
  | [] => []
  | x :: rest => (x :: greedyGo m x.1 rest).map Prod.snd

/-- The numeric core of `calculateSchedule`: for each position `i` of the
optimized list the arrival and departure in minutes since midnight and the
travel time from the previous stop.  The source indexes the matrix with
`locations.indexOf` applied to the optimized list itself, which yields the
positions `i - 1` and `i`. -/
def schedGo (m : List (List ℤ)) : List VisitLocation → ℕ → ℤ →
    List (VisitLocation × ℤ × ℤ × ℤ)
  | [], _, _ => []
  | location :: rest, i, t =>
    let travelTime : ℤ := if i = 0 then 0 else matrixAt m (i - 1) i
    let arrival := t + travelTime
    let departure := arrival + (location.visit_duration_minutes : ℤ)
    (location, arrival, departure, travelTime) :: schedGo m rest (i + 1) departure

/-- Function `calculateSchedule` from `route-planner.ts`: walk the optimized list
accumulating `currentTime`, formatting arrival/departure with `formatTime`. -/
def calculateSchedule (locations : List VisitLocation) (m : List (List ℤ))
    (constraints : TripConstraints) : List SchedItem :=
  (schedGo m locations 0 (parseTime constraints.start_time : ℤ)).map fun it =>
    { location := it.1, arrival := formatTime it.2.1, departure := formatTime it.2.2.1,
      travel_time := it.2.2.2 }

/-- JS `Number.prototype.toFixed(1)` for the nonnegative differences it is
applied to. -/
def toFixed1 (q : ℚ) : String :=
  let n : ℤ := rround (q * 10)
  toString (n / 10) ++ "." ++ toString (n % 10)

/-- Function `createDayPlan` from `route-planner.ts`. -/
def createDayPlan (M : MathPrims) (day : ℕ) (locations : List VisitLocation)
    (segments : List RouteSegment) (distance : ℚ) (time : ℤ)
    (constraints : TripConstraints) (date : Option String) : DayPlan :=
  let maxDayMinutes : ℤ := (parseTime constraints.end_time : ℤ) - (parseTime constraints.start_time : ℤ)
  let feasible := time ≤ maxDayMinutes
  let issues : List String :=
    (if feasible then [] else
      ["Day exceeds time limit by " ++ toString (time - maxDayMinutes) ++ " minutes"]) ++
    (match constraints.max_total_distance_km with
     | some md => if md < distance then
         ["Day exceeds distance limit by " ++ toFixed1 (distance - md) ++ " km"] else []
     | none => [])
  let suggestions : List String :=
    if feasible then [] else ["Consider reducing visit durations or splitting into more days"]
  let totalVisitTime := (locations.map VisitLocation.visit_duration_minutes).sum
  { day := day
    date := date.map fun d => M.addDaysToDate d (day - 1)
    locations := locations
    route_segments := segments
    total_distance_km := (rround (distance * 10) : ℚ) / 10
    total_travel_time_minutes := time - (totalVisitTime : ℤ)
    total_visit_time_minutes := totalVisitTime
    start_time := constraints.start_time
    end_time := formatTime ((parseTime constraints.start_time : ℤ) + time)
    feasible := feasible
    issues := if issues = [] then none else some issues
    suggestions := if suggestions = [] then none else some suggestions }

/-- The `RouteSegment` pushed by `createDayPlans` for a non-first location of a
day: from the previous location of the day to the current one, with the
departure string of the previous schedule item and the arrival string of the
current one. -/
def mkSegment (M : MathPrims) (prevLocation : VisitLocation) (item : SchedItem)
    (prevDep : String) : RouteSegment :=
  { from_loc := prevLocation
    to_loc := item.location
    distance_km := estimateDistance M prevLocation item.location
    travel_time_minutes := item.travel_time
    departure_time := prevDep
    arrival_time := item.arrival }

/-- The `travel_time + visit_duration` minutes a schedule item adds to a day. -/
def itemNeeded (item : SchedItem) : ℤ :=
  item.travel_time + (item.location.visit_duration_minutes : ℤ)

/-- The loop of `createDayPlans`.  State: current day number, the locations,
segments, accumulated `travel + visit` minutes and distance of the current
day, and the departure string of the previous schedule item. -/
def createDayPlansGo (M : MathPrims) (maxDayMinutes : ℤ) (constraints : TripConstraints)
    (date : Option String) : List SchedItem → ℕ → List VisitLocation →
    List RouteSegment → ℤ → ℚ → String → List DayPlan
  | [], day, locs, segs, time, dist, _ =>
    if locs.length > 0 then [createDayPlan M day locs segs dist time constraints date] else []
  | item :: rest, day, locs, segs, time, dist, prevDep =>
    if maxDayMinutes < time + itemNeeded item ∧ locs.length > 0 then
      createDayPlan M day locs segs dist time constraints date ::
        createDayPlansGo M maxDayMinutes constraints date rest (day + 1)
          [item.location] [] (itemNeeded item) 0 item.departure
    else
      match locs.getLast? with
      | some prevLocation =>
        createDayPlansGo M maxDayMinutes constraints date rest day (locs ++ [item.location])
          (segs ++ [mkSegment M prevLocation item prevDep]) (time + itemNeeded item)
          (dist + (mkSegment M prevLocation item prevDep).distance_km) item.departure
      | none =>
        createDayPlansGo M maxDayMinutes constraints date rest day (locs ++ [item.location]) segs
          (time + itemNeeded item) dist item.departure

/-- Function `createDayPlans` from `route-planner.ts`. -/
def createDayPlans (M : MathPrims) (schedule : List SchedItem)
    (constraints : TripConstraints) (date : Option String) : List DayPlan :=
  createDayPlansGo M
    ((parseTime constraints.end_time : ℤ) - (parseTime constraints.start_time : ℤ))
    constraints date schedule 1 [] [] 0 0 ""

/-- Function `generateTripPlan` from `route-planner.ts`. -/
def generateTripPlan (dayPlans : List DayPlan) (allLocations : List VisitLocation)
    (_constraints : TripConstraints) : TripPlan :=
  let visitedLocations := dayPlans.flatMap DayPlan.locations
  let unvisitedLocations := allLocations.filter fun loc =>
    ! visitedLocations.any fun visited => visited.name = loc.name
  let totalDistance := (dayPlans.map DayPlan.total_distance_km).sum
  let totalTime : ℚ :=
    ((dayPlans.map fun plan =>
      (plan.total_travel_time_minutes : ℚ) + (plan.total_visit_time_minutes : ℚ)).sum) / 60
  let feasibleInSingleDay :=
    match dayPlans with
    | [plan] => plan.feasible
    | _ => false
  let optimizationNotes : List String :=
    (if feasibleInSingleDay then [] else
      ["Trip requires " ++ toString dayPlans.length ++ " days to complete comfortably"]) ++
    (if unvisitedLocations.length > 0 then
      [toString unvisitedLocations.length ++ " locations could not be scheduled"] else [])
  let avgTravelTime : ℚ :=
    ((dayPlans.map fun plan => (plan.total_travel_time_minutes : ℚ)).sum) / (dayPlans.length : ℚ)
  let alternativeSuggestions : List String :=
    (if unvisitedLocations.length > 0 then
      ["Consider extending trip duration or reducing visit times"] else []) ++
    (if 180 < avgTravelTime then
      ["Consider grouping locations by geographic proximity"] else [])
  { feasible_in_single_day := feasibleInSingleDay
    recommended_days := dayPlans.length
    day_plans := dayPlans
    total_distance_km := (rround (totalDistance * 10) : ℚ) / 10
    total_time_hours := (rround (totalTime * 10) : ℚ) / 10
    unvisited_locations := unvisitedLocations
    optimization_notes := optimizationNotes
    alternative_suggestions := alternativeSuggestions }

/-- Function `planTrip` from `route-planner.ts`: the full pipeline; a resolution
failure is rethrown wrapped in `Route planning failed: `. -/
def planTrip (M : MathPrims) (g : GeoProvider) (p : PDProvider) (dm : DMProvider)
    (locations : List VisitLocation) (vehicle : Vehicle)
    (constraints : TripConstraints) (date : Option String := none) :
    Except String TripPlan :=
  match resolveLocations g p locations with
  | .error e => .error ("Route planning failed: " ++ e)
  | .ok resolvedLocations =>
    let distanceMatrix := getDistanceMatrix dm M resolvedLocations vehicle
    let optimizedOrder := optimizeRoute resolvedLocations distanceMatrix constraints
    let schedule := calculateSchedule optimizedOrder distanceMatrix constraints
    let dayPlans := createDayPlans M schedule constraints date
    .ok (generateTripPlan dayPlans resolvedLocations constraints)

/-! ### Concrete fixtures for witnesses and counterexamples -/

/-- Trivial platform primitives (the claims settled on concrete inputs do not
depend on the haversine values). -/
def prims0 : MathPrims :=
  { sin := fun _ => 0, cos := fun _ => 0, sqrt := fun _ => 0, atan2 := fun _ _ => 0,
    pi := 0, addDaysToDate := fun d _ => d }

/-- A geocoder whose call always throws. -/
def geo0 : GeoProvider := fun _ => .error ()

/-- A place-details collaborator whose call always throws. -/
def pd0 : PDProvider := fun _ => .error ()

/-- Working day from `09:00` to `17:00`. -/
def cons0 : TripConstraints := { start_time := "09:00", end_time := "17:00" }

/-- Degenerate constraints with `end_time = start_time`. -/
def consEq : TripConstraints := { start_time := "09:00", end_time := "09:00" }

/-- A car without an explicit average speed. -/
def veh0 : Vehicle := { type := .car }

/-- High-priority seed location. -/
def locA : VisitLocation :=
  { name := "A", coordinates := some (1, 1), visit_duration_minutes := 30,
    priority := some .high }

/-- Medium-priority location. -/
def locB : VisitLocation :=
  { name := "B", coordinates := some (2, 2), visit_duration_minutes := 30,
    priority := some .medium }

/-- Location with an unset priority field. -/
def locC : VisitLocation :=
  { name := "C", coordinates := some (3, 3), visit_duration_minutes := 30 }

/-- Variant of `locC` with the unset priority replaced by an explicit `medium`. -/
def locCmed : VisitLocation := { locC with priority := some .medium }

/-- Distance-matrix response for `[locA, locB, locC]`: 600 s between A and B,
540 s between A and C, 420 s between B and C, 0 s on the diagonal. -/
def resp0 : DMResponse :=
  { rows := some [
      ⟨[⟨none, some 0⟩, ⟨none, some 600⟩, ⟨none, some 540⟩]⟩,
      ⟨[⟨none, some 600⟩, ⟨none, some 0⟩, ⟨none, some 420⟩]⟩,
      ⟨[⟨none, some 540⟩, ⟨none, some 420⟩, ⟨none, some 0⟩]⟩] }

/-- A distance-matrix collaborator answering every call with `resp0`. -/
def dm0 : DMProvider := fun _ _ => .ok resp0

/-- A distance-matrix collaborator whose call always throws. -/
def dmErr : DMProvider := fun _ _ => .error ()

/-- Projection used to compare two planner outputs: the visit order of the
first day plan, by location name. -/
def dayNames (e : Except String TripPlan) : List String :=
  match e with
  | .ok plan => (plan.day_plans.getD 0 default).locations.map VisitLocation.name
  | .error _ => []

/-- The trip plan the planner produces for `[locA, locB, locC]`, `veh0`,
`cons0` and the fixture collaborators (spelled out through the pipeline). -/
def c1plan : TripPlan :=
  generateTripPlan
    (createDayPlans prims0
      (calculateSchedule
        (optimizeRoute [locA, locB, locC] (getDistanceMatrix dm0 prims0 [locA, locB, locC] veh0)
          cons0)
        (getDistanceMatrix dm0 prims0 [locA, locB, locC] veh0) cons0)
      cons0 none)
    [locA, locB, locC] cons0

/-- The trip plan the planner produces for `[locA, locB, locC]`, `veh0` and
the degenerate constraints `consEq` (`end_time = start_time`). -/
def c4plan : TripPlan :=
  generateTripPlan
    (createDayPlans prims0
      (calculateSchedule
        (optimizeRoute [locA, locB, locC] (getDistanceMatrix dm0 prims0 [locA, locB, locC] veh0)
          consEq)
        (getDistanceMatrix dm0 prims0 [locA, locB, locC] veh0) consEq)
      consEq none)
    [locA, locB, locC] consEq

/-- Schedule item whose visit alone (600 minutes) exceeds the `cons0`
window. -/
def item600 : SchedItem :=
  { location := { name := "L", coordinates := some (1, 1), visit_duration_minutes := 600 },
    arrival := "09:00", departure := "19:00", travel_time := 0 }

/-- A second high-priority location (input order after `locA`). -/
def locBh : VisitLocation :=
  { name := "B", coordinates := some (2, 2), visit_duration_minutes := 30,
    priority := some .high }

/-- A third high-priority location (input order after `locBh`). -/
def locCh : VisitLocation :=
  { name := "C", coordinates := some (3, 3), visit_duration_minutes := 30,
    priority := some .high }

/-- Travel-time matrix (minutes) with equal times from position 0 to
positions 1 and 2. -/
def mC9 : List (List ℤ) := [[0, 5, 5], [5, 0, 7], [5, 7, 0]]

/-- The geocoding step of `resolveLocations` yields no coordinate for `loc`
under `g`: whenever an address is present, the call throws or the result list
is missing or empty. -/
def geoFails (g : GeoProvider) (loc : VisitLocation) : Prop :=
  ∀ addr, loc.address = some addr → geoLookup g addr = none

/-- The place-details step of `resolveLocations` yields no coordinate for
`loc` under `p`: whenever a `place_id` is present, the call throws or the
response has no geometry. -/
def pdFails (p : PDProvider) (loc : VisitLocation) : Prop :=
  ∀ pid, loc.place_id = some pid → pdLookup p pid = none

/-! ### Basic lemmas -/

theorem rceil_eq (q : ℚ) : rceil q = ⌈q⌉ := by
  rw [rceil, ← neg_neg ⌈q⌉, ← Int.floor_neg, Rat.floor_def]

theorem rround_eq (q : ℚ) : rround q = round q := by
  rw [rround, round_eq, Rat.floor_def]

theorem selectPos_lt_length {α : Type _} (eff : α → ℚ) (x : α) (xs : List α) :
    selectPos eff (x :: xs) < (x :: xs).length := by
  induction xs generalizing x with
  | nil => simp [selectPos]
  | cons y ys ih =>
    have h := ih y
    rw [selectPos]
    rw [List.get?_eq_getElem?, List.getElem?_eq_getElem (by simpa using h)]
    simp only []
    split
    · simpa using Nat.succ_lt_succ (by simpa using h)
    · simp

/-! ### List helpers -/

theorem getD_cons_eraseIdx_perm {α : Type _} :
    ∀ (l : List α) (p : ℕ), p < l.length → ∀ d : α, (l.getD p d :: l.eraseIdx p).Perm l
  | [], p, hp, _ => by simp at hp
  | x :: xs, 0, _, d => by simp [List.eraseIdx]
  | x :: xs, p + 1, hp, d => by
    simp only [List.getD_cons_succ, List.eraseIdx_cons_succ]
    exact ((List.Perm.swap x _ _).trans
      ((getD_cons_eraseIdx_perm xs p (by simpa using hp) d).cons x)).symm.symm

theorem enum_pairwise {α : Type _} (l : List α) :
    l.enum.Pairwise (fun a b => a.1 < b.1) := by
  rw [List.pairwise_iff_getElem]
  intro i j hi hj hij
  simp only [List.getElem_enum]
  simpa using hij

/-! ### Properties of the greedy selection -/

theorem selectPos_min {α : Type _} (eff : α → ℚ) :
    ∀ (l : List α) (d : α), ∀ y ∈ l, eff (l.getD (selectPos eff l) d) ≤ eff y
  | [], _, y, hy => by simp at hy
  | x :: xs, d, y, hy => by
    rw [selectPos]
    match hxs : xs, hy with
    | [], hy => simp_all [selectPos]
    | z :: zs, hy =>
      have hq := selectPos_lt_length eff z zs
      rw [List.get?_eq_getElem?, List.getElem?_eq_getElem (by simpa using hq)]
      simp only []
      rcases List.mem_cons.mp hy with rfl | hmem
      · split
        · next hlt =>
          simp only [List.getD_cons_succ]
          refine le_of_lt ?_
          calc eff ((z :: zs).getD (selectPos eff (z :: zs)) d)
              ≤ eff ((z :: zs)[selectPos eff (z :: zs)]) := by
                rw [List.getD_eq_getElem _ _ (by simpa using hq)]
            _ < eff y := hlt
        · simp
      · split
        · next hlt =>
          simp only [List.getD_cons_succ]
          exact selectPos_min eff (z :: zs) d y hmem
        · next hnlt =>
          simp only [List.getD_cons_zero]
          refine le_trans (not_lt.mp hnlt) ?_
          calc eff ((z :: zs)[selectPos eff (z :: zs)])
              = eff ((z :: zs).getD (selectPos eff (z :: zs)) d) := by
                rw [List.getD_eq_getElem _ _ (by simpa using hq)]
            _ ≤ eff y := selectPos_min eff (z :: zs) d y hmem

theorem selectPos_leftmost {α : Type _} (eff : α → ℚ) :
    ∀ (l : List α) (d : α) (j : ℕ), j < selectPos eff l →
      eff (l.getD (selectPos eff l) d) < eff (l.getD j d)
  | [], _, j, hj => by simp [selectPos] at hj
  | x :: xs, d, j, hj => by
    rw [selectPos] at hj ⊢
    match hxs : xs, hj with
    | [], hj => simp_all [selectPos]
    | z :: zs, hj =>
      have hq := selectPos_lt_length eff z zs
      rw [List.get?_eq_getElem?, List.getElem?_eq_getElem (by simpa using hq)] at hj ⊢
      simp only [] at hj ⊢
      split at hj
      · next hlt =>
        split
        · next hlt2 =>
          match j with
          | 0 =>
            simp only [List.getD_cons_succ, List.getD_cons_zero]
            calc eff ((z :: zs).getD (selectPos eff (z :: zs)) d)
                = eff ((z :: zs)[selectPos eff (z :: zs)]) := by
                  rw [List.getD_eq_getElem _ _ (by simpa using hq)]
              _ < eff x := hlt
          | j + 1 =>
            simp only [List.getD_cons_succ]
            exact selectPos_leftmost eff (z :: zs) d j (by omega)
        · next h2 => exact absurd hlt h2
      · omega

/-! ### Properties of the sort -/

theorem insertByRank_perm (x : ℕ × VisitLocation) :
    ∀ l : List (ℕ × VisitLocation), (insertByRank x l).Perm (x :: l)
  | [] => by simp [insertByRank]
  | y :: ys => by
    rw [insertByRank]
    split
    · exact ((insertByRank_perm x ys).cons y).trans (List.Perm.swap x y ys)
    · exact List.Perm.refl _

theorem sortByPriority_perm :
    ∀ l : List (ℕ × VisitLocation), (sortByPriority l).Perm l
  | [] => by simp [sortByPriority]
  | x :: xs =>
    (insertByRank_perm x (sortByPriority xs)).trans ((sortByPriority_perm xs).cons x)

theorem insertByRank_pairwise (x : ℕ × VisitLocation) :
    ∀ l : List (ℕ × VisitLocation), l.Pairwise StableRel →
      (∀ y ∈ l, x.1 < y.1) → (insertByRank x l).Pairwise StableRel
  | [], _, _ => by simp [insertByRank, StableRel]
  | y :: ys, hl, hx => by
    rw [List.pairwise_cons] at hl
    obtain ⟨hy, hys⟩ := hl
    rw [insertByRank]
    split
    · next hlt =>
      rw [List.pairwise_cons]
      constructor
      · intro z hz
        rcases List.mem_cons.mp ((insertByRank_perm x ys).mem_iff.mp hz) with rfl | hz2
        · exact Or.inl hlt
        · exact hy z hz2
      · exact insertByRank_pairwise x ys hys fun z hz => hx z (List.mem_cons_of_mem y hz)
    · next hnlt =>
      rw [List.pairwise_cons]
      constructor
      · intro z hz
        rcases List.mem_cons.mp hz with rfl | hz2
        · rcases lt_or_eq_of_le (not_lt.mp hnlt) with h | h
          · exact Or.inl h
          · exact Or.inr ⟨h, hx z (List.mem_cons_self _ _)⟩
        · rcases hy z hz2 with h | ⟨heq, _⟩
          · rcases lt_or_eq_of_le (le_of_lt (lt_of_lt_of_le h (not_lt.mp hnlt))) with h2 | h2
            · exact Or.inl h2
            · exact Or.inr ⟨h2, hx z (List.mem_cons_of_mem y hz2)⟩
          · rcases lt_or_eq_of_le (heq ▸ not_lt.mp hnlt) with h2 | h2
            · exact Or.inl h2
            · exact Or.inr ⟨h2, hx z (List.mem_cons_of_mem y hz2)⟩
      · exact List.pairwise_cons.mpr ⟨hy, hys⟩

theorem sortByPriority_pairwise :
    ∀ l : List (ℕ × VisitLocation), l.Pairwise (fun a b => a.1 < b.1) →
      (sortByPriority l).Pairwise StableRel
  | [], _ => by simp [sortByPriority]
  | x :: xs, hl => by
    rw [List.pairwise_cons] at hl
    obtain ⟨hx, hxs⟩ := hl
    exact insertByRank_pairwise x (sortByPriority xs) (sortByPriority_pairwise xs hxs)
      fun y hy => hx y ((sortByPriority_perm xs).mem_iff.mp hy)

/-! ### Properties of the greedy loop -/

theorem greedyGo_perm (m : List (List ℤ)) :
    ∀ (n : ℕ) (cur : ℕ) (l : List (ℕ × VisitLocation)), l.length ≤ n →
      (greedyGo m cur l).Perm l
  | 0, cur, l, hl => by
    match l, hl with
    | [], _ => simp [greedyGo]
  | n + 1, cur, l, hl => by
    match l with
    | [] => simp [greedyGo]
    | x :: xs =>
      rw [greedyGo]
      have hp := selectPos_lt_length (effTime m cur) x xs
      refine List.Perm.trans (List.Perm.cons _ (greedyGo_perm m n _ _ ?_))
        (getD_cons_eraseIdx_perm (x :: xs) _ hp x)
      have := List.length_eraseIdx (l := x :: xs) (i := selectPos (effTime m cur) (x :: xs))
      rw [this, if_pos hp]
      simpa using Nat.le_of_succ_le_succ (by simpa using hl)

theorem optimizeRoute_perm (locs : List VisitLocation) (m : List (List ℤ))
    (c : TripConstraints) : (optimizeRoute locs m c).Perm locs := by
  rw [optimizeRoute]
  have hsp := sortByPriority_perm locs.enum
  split
  · next heq =>
    rw [heq] at hsp
    have h0 : locs.enum = [] := List.perm_nil.mp hsp.symm
    have h1 : locs = [] := by
      match locs, h0 with
      | [], _ => rfl
    simp [h1]
  · next x rest heq =>
    have h1 : ((x :: greedyGo m x.1 rest).map Prod.snd).Perm ((x :: rest).map Prod.snd) := by
      refine List.Perm.map _ ?_
      exact (greedyGo_perm m rest.length x.1 rest le_rfl).cons x
    refine h1.trans ?_
    have h2 : (x :: rest).Perm locs.enum := heq ▸ hsp
    have h3 := h2.map Prod.snd
    simpa [List.enum_map_snd] using h3

/-! ### Properties of the schedule builder -/

theorem schedGo_map_fst (m : List (List ℤ)) :
    ∀ (locs : List VisitLocation) (i : ℕ) (t : ℤ),
      (schedGo m locs i t).map (fun it => it.1) = locs
  | [], _, _ => rfl
  | loc :: rest, i, t => by
    rw [schedGo]
    simpa using schedGo_map_fst m rest (i + 1) _

theorem schedGo_length (m : List (List ℤ)) :
    ∀ (locs : List VisitLocation) (i : ℕ) (t : ℤ),
      (schedGo m locs i t).length = locs.length
  | [], _, _ => rfl
  | loc :: rest, i, t => by
    rw [schedGo]
    simpa using schedGo_length m rest (i + 1) _

theorem schedGo_getD_zero (m : List (List ℤ)) (loc : VisitLocation)
    (rest : List VisitLocation) (t : ℤ) (d : VisitLocation × ℤ × ℤ × ℤ) :
    (schedGo m (loc :: rest) 0 t).getD 0 d =
      (loc, t, t + (loc.visit_duration_minutes : ℤ), 0) := by
  simp [schedGo]

theorem schedGo_dep_arr (m : List (List ℤ)) :
    ∀ (locs : List VisitLocation) (i : ℕ) (t : ℤ) (k : ℕ), k < locs.length →
      ∀ d, ((schedGo m locs i t).getD k d).2.2.1 =
        ((schedGo m locs i t).getD k d).2.1 +
          ((((schedGo m locs i t).getD k d).1).visit_duration_minutes : ℤ)
  | [], _, _, k, hk, _ => by simp at hk
  | loc :: rest, i, t, 0, _, d => by simp [schedGo]
  | loc :: rest, i, t, k + 1, hk, d => by
    rw [schedGo]
    simpa using schedGo_dep_arr m rest (i + 1) _ k (by simpa using hk) d

theorem schedGo_step (m : List (List ℤ)) :
    ∀ (locs : List VisitLocation) (i : ℕ) (t : ℤ) (k : ℕ), k + 1 < locs.length →
      ∀ d, (((schedGo m locs i t).getD (k + 1) d).2.2.2 = matrixAt m (i + k) (i + k + 1)) ∧
        ((schedGo m locs i t).getD (k + 1) d).2.1 =
          ((schedGo m locs i t).getD k d).2.2.1 + matrixAt m (i + k) (i + k + 1)
  | [], _, _, k, hk, _ => by simp at hk
  | loc :: rest, i, t, 0, hk, d => by
    match rest, hk with
    | loc2 :: rest2, _ =>
      rw [schedGo, schedGo]
      simp [Nat.add_sub_cancel]
  | loc :: rest, i, t, k + 1, hk, d => by
    rw [schedGo]
    have := schedGo_step m rest (i + 1) (t + (if i = 0 then 0 else matrixAt m (i - 1) i) +
      (loc.visit_duration_minutes : ℤ)) k (by simpa using hk) d
    simpa [Nat.add_assoc, Nat.add_comm, Nat.add_left_comm] using this

theorem schedGo_travel_nonneg (m : List (List ℤ)) (hm : ∀ a b, 0 ≤ matrixAt m a b) :
    ∀ (locs : List VisitLocation) (i : ℕ) (t : ℤ),
      ∀ it ∈ schedGo m locs i t, 0 ≤ it.2.2.2
  | [], _, _, it, hit => by simp [schedGo] at hit
  | loc :: rest, i, t, it, hit => by
    rw [schedGo] at hit
    rcases List.mem_cons.mp hit with rfl | hmem
    · by_cases hi : i = 0 <;> simp [hi, hm]
    · exact schedGo_travel_nonneg m hm rest (i + 1) _ it hmem

theorem getD_map {α β : Type _} (f : α → β) :
    ∀ (l : List α) (k : ℕ) (d : α), (l.map f).getD k (f d) = f (l.getD k d)
  | [], k, d => by simp
  | x :: xs, 0, d => by simp
  | x :: xs, k + 1, d => by simp [getD_map f xs k d]

theorem calculateSchedule_map_location (locs : List VisitLocation)
    (m : List (List ℤ)) (c : TripConstraints) :
    (calculateSchedule locs m c).map SchedItem.location = locs := by
  rw [calculateSchedule, List.map_map]
  exact schedGo_map_fst m locs 0 _

theorem calculateSchedule_length (locs : List VisitLocation)
    (m : List (List ℤ)) (c : TripConstraints) :
    (calculateSchedule locs m c).length = locs.length := by
  rw [calculateSchedule, List.length_map]
  exact schedGo_length m locs 0 _

/-! ### Properties of location resolution -/

theorem resolveLocation_ok_fields (g : GeoProvider) (p : PDProvider)
    (loc r : VisitLocation) (h : resolveLocation g p loc = .ok r) :
    r.name = loc.name ∧ r.visit_duration_minutes = loc.visit_duration_minutes ∧
      r.priority = loc.priority := by
  rw [resolveLocation] at h
  split at h
  · exact absurd h (by simp)
  · rw [Except.ok.injEq] at h
    subst h
    exact ⟨rfl, rfl, rfl⟩

theorem resolveLocations_ok (g : GeoProvider) (p : PDProvider) :
    ∀ (locs res : List VisitLocation), resolveLocations g p locs = .ok res →
      res.map VisitLocation.name = locs.map VisitLocation.name ∧
        res.map VisitLocation.visit_duration_minutes =
          locs.map VisitLocation.visit_duration_minutes
  | [], res, h => by
    rw [resolveLocations] at h
    rw [Except.ok.injEq] at h
    subst h
    exact ⟨rfl, rfl⟩
  | loc :: rest, res, h => by
    rw [resolveLocations] at h
    split at h
    · exact absurd h (by simp)
    · next r hr =>
      split at h
      · exact absurd h (by simp)
      · next rs hrs =>
        rw [Except.ok.injEq] at h
        subst h
        obtain ⟨h1, h2, _⟩ := resolveLocation_ok_fields g p loc r hr
        obtain ⟨h3, h4⟩ := resolveLocations_ok g p rest rs hrs
        simp [h1, h2, h3, h4]

theorem resolveLocation_of_coords (g : GeoProvider) (p : PDProvider)
    (loc : VisitLocation) (h : loc.coordinates.isSome) :
    resolveLocation g p loc = .ok loc := by
  obtain ⟨c, hc⟩ := Option.isSome_iff_exists.mp h
  rw [resolveLocation]
  cases loc
  simp only [] at hc
  subst hc
  rfl

theorem resolveLocations_of_coords (g : GeoProvider) (p : PDProvider) :
    ∀ locs : List VisitLocation, (∀ loc ∈ locs, loc.coordinates.isSome) →
      resolveLocations g p locs = .ok locs
  | [], _ => rfl
  | loc :: rest, h => by
    rw [resolveLocations, resolveLocation_of_coords g p loc (h loc (by simp)),
      resolveLocations_of_coords g p rest fun x hx => h x (List.mem_cons_of_mem loc hx)]

/-! ### Properties of the day-plan splitter -/

theorem createDayPlan_locations (M : MathPrims) (day : ℕ) (locs : List VisitLocation)
    (segs : List RouteSegment) (dist : ℚ) (time : ℤ) (c : TripConstraints)
    (date : Option String) :
    (createDayPlan M day locs segs dist time c date).locations = locs := by
  simp [createDayPlan]

theorem createDayPlan_segments (M : MathPrims) (day : ℕ) (locs : List VisitLocation)
    (segs : List RouteSegment) (dist : ℚ) (time : ℤ) (c : TripConstraints)
    (date : Option String) :
    (createDayPlan M day locs segs dist time c date).route_segments = segs := by
  simp [createDayPlan]

theorem createDayPlan_feasible (M : MathPrims) (day : ℕ) (locs : List VisitLocation)
    (segs : List RouteSegment) (dist : ℚ) (time : ℤ) (c : TripConstraints)
    (date : Option String) :
    (createDayPlan M day locs segs dist time c date).feasible =
      decide (time ≤ (parseTime c.end_time : ℤ) - (parseTime c.start_time : ℤ)) := by
  simp [createDayPlan]

theorem createDayPlansGo_nil (M : MathPrims) (maxDay : ℤ) (c : TripConstraints)
    (date : Option String) (day : ℕ) (locs : List VisitLocation)
    (segs : List RouteSegment) (time : ℤ) (dist : ℚ) (prev : String) :
    createDayPlansGo M maxDay c date [] day locs segs time dist prev =
      if locs.length > 0 then [createDayPlan M day locs segs dist time c date] else [] := by
  rw [createDayPlansGo]

theorem createDayPlansGo_close (M : MathPrims) (maxDay : ℤ) (c : TripConstraints)
    (date : Option String) (item : SchedItem) (rest : List SchedItem) (day : ℕ)
    (locs : List VisitLocation) (segs : List RouteSegment) (time : ℤ) (dist : ℚ)
    (prev : String) (h : maxDay < time + itemNeeded item ∧ locs.length > 0) :
    createDayPlansGo M maxDay c date (item :: rest) day locs segs time dist prev =
      createDayPlan M day locs segs dist time c date ::
        createDayPlansGo M maxDay c date rest (day + 1) [item.location] []
          (itemNeeded item) 0 item.departure := by
  rw [createDayPlansGo, if_pos h]

theorem createDayPlansGo_extend (M : MathPrims) (maxDay : ℤ) (c : TripConstraints)
    (date : Option String) (item : SchedItem) (rest : List SchedItem) (day : ℕ)
    (locs : List VisitLocation) (segs : List RouteSegment) (time : ℤ) (dist : ℚ)
    (prev : String) (prevLocation : VisitLocation)
    (h : ¬(maxDay < time + itemNeeded item ∧ locs.length > 0))
    (hl : locs.getLast? = some prevLocation) :
    createDayPlansGo M maxDay c date (item :: rest) day locs segs time dist prev =
      createDayPlansGo M maxDay c date rest day (locs ++ [item.location])
        (segs ++ [mkSegment M prevLocation item prev]) (time + itemNeeded item)
        (dist + (mkSegment M prevLocation item prev).distance_km) item.departure := by
  rw [createDayPlansGo, if_neg h, hl]

theorem createDayPlansGo_first (M : MathPrims) (maxDay : ℤ) (c : TripConstraints)
    (date : Option String) (item : SchedItem) (rest : List SchedItem) (day : ℕ)
    (locs : List VisitLocation) (segs : List RouteSegment) (time : ℤ) (dist : ℚ)
    (prev : String) (h : ¬(maxDay < time + itemNeeded item ∧ locs.length > 0))
    (hl : locs.getLast? = none) :
    createDayPlansGo M maxDay c date (item :: rest) day locs segs time dist prev =
      createDayPlansGo M maxDay c date rest day (locs ++ [item.location]) segs
        (time + itemNeeded item) dist item.departure := by
  rw [createDayPlansGo, if_neg h, hl]

theorem createDayPlansGo_flatten (M : MathPrims) (maxDay : ℤ) (c : TripConstraints)
    (date : Option String) :
    ∀ (sched : List SchedItem) (day : ℕ) (locs : List VisitLocation)
      (segs : List RouteSegment) (time : ℤ) (dist : ℚ) (prev : String),
      (createDayPlansGo M maxDay c date sched day locs segs time dist prev).flatMap
          DayPlan.locations =
        locs ++ sched.map SchedItem.location
  | [], day, locs, segs, time, dist, prev => by
    rw [createDayPlansGo_nil]
    split
    · simp [createDayPlan_locations]
    · next h =>
      have : locs = [] := List.length_eq_zero.mp (by omega)
      simp [this]
  | item :: rest, day, locs, segs, time, dist, prev => by
    by_cases hc : maxDay < time + itemNeeded item ∧ locs.length > 0
    · rw [createDayPlansGo_close M maxDay c date item rest day locs segs time dist prev hc,
        List.flatMap_cons, createDayPlan_locations,
        createDayPlansGo_flatten M maxDay c date rest _ _ _ _ _ _]
      simp
    · cases hl : locs.getLast? with
      | some prevLocation =>
        rw [createDayPlansGo_extend M maxDay c date item rest day locs segs time dist prev
            prevLocation hc hl,
          createDayPlansGo_flatten M maxDay c date rest _ _ _ _ _ _]
        simp
      | none =>
        rw [createDayPlansGo_first M maxDay c date item rest day locs segs time dist prev hc hl,
          createDayPlansGo_flatten M maxDay c date rest _ _ _ _ _ _]
        simp

theorem createDayPlans_flatten (M : MathPrims) (sched : List SchedItem)
    (c : TripConstraints) (date : Option String) :
    (createDayPlans M sched c date).flatMap DayPlan.locations =
      sched.map SchedItem.location := by
  rw [createDayPlans, createDayPlansGo_flatten M _ c date sched 1 [] [] 0 0 ""]
  rfl

theorem createDayPlansGo_chain (M : MathPrims) (maxDay : ℤ) (c : TripConstraints)
    (date : Option String) :
    ∀ (sched : List SchedItem) (day : ℕ) (locs : List VisitLocation)
      (segs : List RouteSegment) (time : ℤ) (dist : ℚ) (prev : String),
      segs.map RouteSegment.from_loc = locs.dropLast →
      segs.map RouteSegment.to_loc = locs.tail →
      ∀ plan ∈ createDayPlansGo M maxDay c date sched day locs segs time dist prev,
        plan.route_segments.map RouteSegment.from_loc = plan.locations.dropLast ∧
          plan.route_segments.map RouteSegment.to_loc = plan.locations.tail
  | [], day, locs, segs, time, dist, prev => by
    intro hfrom hto plan hplan
    rw [createDayPlansGo_nil] at hplan
    split at hplan
    · rcases List.mem_singleton.mp hplan with rfl
      rw [createDayPlan_locations, createDayPlan_segments]
      exact ⟨hfrom, hto⟩
    · simp at hplan
  | item :: rest, day, locs, segs, time, dist, prev => by
    intro hfrom hto plan hplan
    by_cases hc : maxDay < time + itemNeeded item ∧ locs.length > 0
    · rw [createDayPlansGo_close M maxDay c date item rest day locs segs time dist prev hc]
        at hplan
      rcases List.mem_cons.mp hplan with rfl | hmem
      · rw [createDayPlan_locations, createDayPlan_segments]
        exact ⟨hfrom, hto⟩
      · exact createDayPlansGo_chain M maxDay c date rest _ _ _ _ _ _ (by simp) (by simp)
          plan hmem
    · cases hl : locs.getLast? with
      | some prevLocation =>
        rw [createDayPlansGo_extend M maxDay c date item rest day locs segs time dist prev
            prevLocation hc hl] at hplan
        have hlocs : locs ≠ [] := by
          intro hnil
          rw [hnil] at hl
          simp at hl
        refine createDayPlansGo_chain M maxDay c date rest _ _ _ _ _ _ ?_ ?_ plan hplan
        · rw [List.map_append, hfrom]
          simp only [mkSegment, List.map_cons, List.map_nil]
          rw [List.dropLast_concat]
          rw [List.getLast?_eq_getLast _ hlocs] at hl
          rw [← Option.some_inj.mp hl]
          exact List.dropLast_append_getLast hlocs
        · rw [List.map_append, hto]
          simp only [mkSegment, List.map_cons, List.map_nil]
          match locs, hlocs with
          | a :: as, _ => simp
      | none =>
        rw [createDayPlansGo_first M maxDay c date item rest day locs segs time dist prev hc hl]
          at hplan
        have hlocs : locs = [] := by
          cases locs with
          | nil => rfl
          | cons a as => simp at hl
        subst hlocs
        have hsegs : segs = [] := by
          cases segs with
          | nil => rfl
          | cons b bs => simp at hfrom
        subst hsegs
        exact createDayPlansGo_chain M maxDay c date rest _ _ _ _ _ _ (by simp) (by simp)
          plan hplan

theorem createDayPlans_chain (M : MathPrims) (sched : List SchedItem)
    (c : TripConstraints) (date : Option String) :
    ∀ plan ∈ createDayPlans M sched c date,
      plan.route_segments.map RouteSegment.from_loc = plan.locations.dropLast ∧
        plan.route_segments.map RouteSegment.to_loc = plan.locations.tail := by
  rw [createDayPlans]
  exact createDayPlansGo_chain M _ c date sched 1 [] [] 0 0 "" rfl rfl

theorem createDayPlan_day (M : MathPrims) (day : ℕ) (locs : List VisitLocation)
    (segs : List RouteSegment) (dist : ℚ) (time : ℤ) (c : TripConstraints)
    (date : Option String) :
    (createDayPlan M day locs segs dist time c date).day = day := by
  simp [createDayPlan]

theorem createDayPlan_infeasible_fields (M : MathPrims) (day : ℕ)
    (locs : List VisitLocation) (segs : List RouteSegment) (dist : ℚ) (time : ℤ)
    (c : TripConstraints) (date : Option String)
    (h : ¬(time ≤ (parseTime c.end_time : ℤ) - (parseTime c.start_time : ℤ)))
    (hmd : c.max_total_distance_km = none) :
    (createDayPlan M day locs segs dist time c date).feasible = false ∧
      (createDayPlan M day locs segs dist time c date).issues =
        some ["Day exceeds time limit by " ++
          toString (time - ((parseTime c.end_time : ℤ) - (parseTime c.start_time : ℤ))) ++
          " minutes"] ∧
      (createDayPlan M day locs segs dist time c date).suggestions =
        some ["Consider reducing visit durations or splitting into more days"] := by
  refine ⟨?_, ?_, ?_⟩ <;> simp [createDayPlan, hmd, h]

theorem createDayPlansGo_tight (M : MathPrims) (c : TripConstraints)
    (date : Option String)
    (hmax : (parseTime c.end_time : ℤ) - (parseTime c.start_time : ℤ) ≤ 0) :
    ∀ (sched : List SchedItem) (day : ℕ) (l0 : VisitLocation) (segs : List RouteSegment)
      (time : ℤ) (dist : ℚ) (prev : String),
      (∀ it ∈ sched, 1 ≤ itemNeeded it) → 1 ≤ time →
      (createDayPlansGo M ((parseTime c.end_time : ℤ) - (parseTime c.start_time : ℤ))
            c date sched day [l0] segs time dist prev).length =
          1 + sched.length ∧
        ∀ plan ∈ createDayPlansGo M ((parseTime c.end_time : ℤ) - (parseTime c.start_time : ℤ))
            c date sched day [l0] segs time dist prev,
          plan.locations.length = 1 ∧ plan.feasible = false
  | [], day, l0, segs, time, dist, prev => by
    intro _ htime
    rw [createDayPlansGo_nil, if_pos (by simp)]
    refine ⟨rfl, ?_⟩
    intro plan hplan
    rcases List.mem_singleton.mp hplan with rfl
    rw [createDayPlan_locations, createDayPlan_feasible]
    exact ⟨rfl, by simp; omega⟩
  | item :: rest, day, l0, segs, time, dist, prev => by
    intro hpos htime
    have hneed : 1 ≤ itemNeeded item := hpos item (by simp)
    have hc : (parseTime c.end_time : ℤ) - (parseTime c.start_time : ℤ) <
        time + itemNeeded item ∧ ([l0] : List VisitLocation).length > 0 :=
      ⟨by omega, by simp⟩
    rw [createDayPlansGo_close M _ c date item rest day [l0] segs time dist prev hc]
    obtain ⟨hlen, hall⟩ := createDayPlansGo_tight M c date hmax rest (day + 1)
      item.location [] (itemNeeded item) 0 item.departure
      (fun it hit => hpos it (List.mem_cons_of_mem item hit)) hneed
    refine ⟨by simp [hlen]; omega, ?_⟩
    intro plan hplan
    rcases List.mem_cons.mp hplan with rfl | hmem
    · rw [createDayPlan_locations, createDayPlan_feasible]
      exact ⟨rfl, by simp; omega⟩
    · exact hall plan hmem

theorem createDayPlans_tight (M : MathPrims) (c : TripConstraints) (date : Option String)
    (sched : List SchedItem)
    (hmax : (parseTime c.end_time : ℤ) - (parseTime c.start_time : ℤ) ≤ 0)
    (hpos : ∀ it ∈ sched, 1 ≤ itemNeeded it) :
    (createDayPlans M sched c date).length = sched.length ∧
      ∀ plan ∈ createDayPlans M sched c date,
        plan.locations.length = 1 ∧ plan.feasible = false := by
  rw [createDayPlans]
  cases sched with
  | nil => simp [createDayPlansGo_nil]
  | cons item rest =>
    rw [createDayPlansGo_first M _ c date item rest 1 [] [] 0 0 "" (by simp) rfl]
    obtain ⟨hlen, hall⟩ := createDayPlansGo_tight M c date hmax rest 1 item.location []
      (0 + itemNeeded item) 0 item.departure
      (fun it hit => hpos it (List.mem_cons_of_mem item hit))
      (by have := hpos item (by simp); omega)
    refine ⟨?_, ?_⟩
    · rw [List.nil_append, hlen]
      simp [Nat.add_comm]
    · rw [List.nil_append]
      exact hall

theorem createDayPlansGo_overlong (M : MathPrims) (maxDay : ℤ) (c : TripConstraints)
    (date : Option String) (item : SchedItem) (rest : List SchedItem) (day : ℕ)
    (prev : String) (hover : maxDay < itemNeeded item)
    (hrest : ∀ it ∈ rest, 0 ≤ itemNeeded it) :
    (createDayPlansGo M maxDay c date (item :: rest) day [] [] 0 0 prev).head? =
      some (createDayPlan M day [item.location] [] 0 (itemNeeded item) c date) := by
  rw [createDayPlansGo_first M maxDay c date item rest day [] [] 0 0 prev (by simp) rfl]
  cases rest with
  | nil =>
    rw [createDayPlansGo_nil, if_pos (by simp)]
    simp
  | cons item2 rest2 =>
    have h2 : 0 ≤ itemNeeded item2 := hrest item2 (by simp)
    rw [createDayPlansGo_close M maxDay c date item2 rest2 day _ [] _ 0 item.departure
      ⟨by omega, by simp⟩]
    simp

/-! ### Properties of the trip-plan aggregation -/

theorem generateTripPlan_day_plans (dps : List DayPlan) (all : List VisitLocation)
    (c : TripConstraints) : (generateTripPlan dps all c).day_plans = dps := rfl

theorem generateTripPlan_recommended_days (dps : List DayPlan) (all : List VisitLocation)
    (c : TripConstraints) : (generateTripPlan dps all c).recommended_days = dps.length := rfl

theorem generateTripPlan_unvisited (dps : List DayPlan) (all : List VisitLocation)
    (c : TripConstraints) :
    (generateTripPlan dps all c).unvisited_locations =
      all.filter fun loc =>
        ! (dps.flatMap DayPlan.locations).any fun visited => visited.name = loc.name := rfl

theorem planTrip_ok (M : MathPrims) (g : GeoProvider) (p : PDProvider) (dm : DMProvider)
    (locs : List VisitLocation) (v : Vehicle) (c : TripConstraints) (date : Option String)
    (resolved : List VisitLocation) (hres : resolveLocations g p locs = .ok resolved) :
    planTrip M g p dm locs v c date =
      .ok (generateTripPlan
        (createDayPlans M
          (calculateSchedule (optimizeRoute resolved (getDistanceMatrix dm M resolved v) c)
            (getDistanceMatrix dm M resolved v) c)
          c date)
        resolved c) := by
  rw [planTrip, hres]

theorem planTrip_error (M : MathPrims) (g : GeoProvider) (p : PDProvider) (dm : DMProvider)
    (locs : List VisitLocation) (v : Vehicle) (c : TripConstraints) (date : Option String)
    (e : String) (hres : resolveLocations g p locs = .error e) :
    planTrip M g p dm locs v c date = .error ("Route planning failed: " ++ e) := by
  rw [planTrip, hres]

/-! ### The claims -/

/-- C1: for every successful `planTrip` run, the names in the union of all
`DayPlan` location lists plus `unvisited_locations` are a permutation of the
input location names (so with unique input names, every input location appears
in exactly one day plan or in `unvisited_locations`, never both, never
omitted); moreover `unvisited_locations` is always empty on the success
path. -/
theorem C1_all_locations_partitioned (M : MathPrims) (g : GeoProvider) (p : PDProvider)
    (dm : DMProvider) (locs : List VisitLocation) (v : Vehicle) (c : TripConstraints)
    (date : Option String) (plan : TripPlan)
    (h : planTrip M g p dm locs v c date = .ok plan) :
    ((plan.day_plans.flatMap DayPlan.locations).map VisitLocation.name ++
        plan.unvisited_locations.map VisitLocation.name).Perm
      (locs.map VisitLocation.name) ∧
      plan.unvisited_locations = [] := by
  cases hres : resolveLocations g p locs with
  | error e =>
    rw [planTrip_error M g p dm locs v c date e hres] at h
    exact absurd h (by simp)
  | ok resolved =>
    rw [planTrip_ok M g p dm locs v c date resolved hres] at h
    rw [Except.ok.injEq] at h
    subst h
    have hflat : ((createDayPlans M
        (calculateSchedule (optimizeRoute resolved (getDistanceMatrix dm M resolved v) c)
          (getDistanceMatrix dm M resolved v) c) c date).flatMap DayPlan.locations) =
        optimizeRoute resolved (getDistanceMatrix dm M resolved v) c := by
      rw [createDayPlans_flatten, calculateSchedule_map_location]
    have hperm : (optimizeRoute resolved (getDistanceMatrix dm M resolved v) c).Perm resolved :=
      optimizeRoute_perm resolved _ c
    have hnames := (resolveLocations_ok g p locs resolved hres).1
    have hunv : (generateTripPlan
        (createDayPlans M
          (calculateSchedule (optimizeRoute resolved (getDistanceMatrix dm M resolved v) c)
            (getDistanceMatrix dm M resolved v) c) c date)
        resolved c).unvisited_locations = [] := by
      rw [generateTripPlan_unvisited, List.filter_eq_nil_iff]
      intro a ha
      simp only [Bool.not_eq_true', Bool.not_eq_false, List.any_eq_true, decide_eq_true_eq]
      rw [hflat]
      exact ⟨a, hperm.mem_iff.mpr ha, rfl⟩
    refine ⟨?_, hunv⟩
    rw [generateTripPlan_day_plans, hunv, List.map_nil, List.append_nil, hflat]
    exact (hperm.map VisitLocation.name).trans (hnames ▸ List.Perm.refl _)

theorem C1_all_locations_partitioned_witness :
    ((c1plan.day_plans.flatMap DayPlan.locations).map VisitLocation.name ++
        c1plan.unvisited_locations.map VisitLocation.name).Perm
      ([locA, locB, locC].map VisitLocation.name) ∧
      c1plan.unvisited_locations = [] :=
  C1_all_locations_partitioned prims0 geo0 pd0 dm0 [locA, locB, locC] veh0 cons0 none c1plan
    (planTrip_ok prims0 geo0 pd0 dm0 [locA, locB, locC] veh0 cons0 none [locA, locB, locC]
      (resolveLocations_of_coords geo0 pd0 [locA, locB, locC] (by decide)))

theorem sched_location_mem (locs : List VisitLocation) (m : List (List ℤ))
    (c : TripConstraints) (it : SchedItem) (hit : it ∈ calculateSchedule locs m c) :
    it.location ∈ locs := by
  rw [← calculateSchedule_map_location locs m c]
  exact List.mem_map_of_mem SchedItem.location hit

/-- C4 counterexample: with `end_time = start_time` (so `end_time ≤
start_time`) `planTrip` still returns a `TripPlan`; no
`InvalidConstraintsError` exists anywhere in the pipeline. -/
theorem C4_counterexample :
    parseTime consEq.end_time ≤ parseTime consEq.start_time ∧
      (planTrip prims0 geo0 pd0 dm0 [locA, locB, locC] veh0 consEq none).isOk = true := by
  refine ⟨by decide, ?_⟩
  rw [planTrip_ok prims0 geo0 pd0 dm0 [locA, locB, locC] veh0 consEq none [locA, locB, locC]
    (resolveLocations_of_coords geo0 pd0 [locA, locB, locC] (by decide))]
  rfl

/-- C4 (amended): `planTrip` performs no validation of the time window.  When
every location carries coordinates it succeeds even though
`end_time ≤ start_time`; the non-positive daily window then makes the splitter
close a day after every single stop, so the result has one `DayPlan` per input
location, each containing exactly one location and marked infeasible (given
positive visit durations and non-negative travel times). -/
theorem C4_no_constraint_validation (M : MathPrims) (g : GeoProvider) (p : PDProvider)
    (dm : DMProvider) (locs : List VisitLocation) (v : Vehicle) (c : TripConstraints)
    (date : Option String)
    (hcoords : ∀ loc ∈ locs, loc.coordinates.isSome)
    (hend : parseTime c.end_time ≤ parseTime c.start_time)
    (hdur : ∀ loc ∈ locs, 1 ≤ loc.visit_duration_minutes)
    (htravel : ∀ it ∈ calculateSchedule
        (optimizeRoute locs (getDistanceMatrix dm M locs v) c)
        (getDistanceMatrix dm M locs v) c, 0 ≤ it.travel_time) :
    planTrip M g p dm locs v c date =
      .ok (generateTripPlan
        (createDayPlans M
          (calculateSchedule (optimizeRoute locs (getDistanceMatrix dm M locs v) c)
            (getDistanceMatrix dm M locs v) c) c date) locs c) ∧
    (generateTripPlan
        (createDayPlans M
          (calculateSchedule (optimizeRoute locs (getDistanceMatrix dm M locs v) c)
            (getDistanceMatrix dm M locs v) c) c date) locs c).recommended_days =
      locs.length ∧
    ∀ dp ∈ (generateTripPlan
        (createDayPlans M
          (calculateSchedule (optimizeRoute locs (getDistanceMatrix dm M locs v) c)
            (getDistanceMatrix dm M locs v) c) c date) locs c).day_plans,
      dp.locations.length = 1 ∧ dp.feasible = false := by
  have hmax : (parseTime c.end_time : ℤ) - (parseTime c.start_time : ℤ) ≤ 0 := by
    omega
  have hpos : ∀ it ∈ calculateSchedule
      (optimizeRoute locs (getDistanceMatrix dm M locs v) c)
      (getDistanceMatrix dm M locs v) c, 1 ≤ itemNeeded it := by
    intro it hit
    have h1 := htravel it hit
    have h2 : it.location ∈ locs :=
      (optimizeRoute_perm locs (getDistanceMatrix dm M locs v) c).mem_iff.mp
        (sched_location_mem _ _ _ it hit)
    have h3 := hdur it.location h2
    rw [itemNeeded]
    omega
  obtain ⟨hlen, hall⟩ := createDayPlans_tight M c date
    (calculateSchedule (optimizeRoute locs (getDistanceMatrix dm M locs v) c)
      (getDistanceMatrix dm M locs v) c) hmax hpos
  refine ⟨planTrip_ok M g p dm locs v c date locs
    (resolveLocations_of_coords g p locs hcoords), ?_, ?_⟩
  · rw [generateTripPlan_recommended_days, hlen, calculateSchedule_length]
    exact (optimizeRoute_perm locs (getDistanceMatrix dm M locs v) c).length_eq
  · rw [generateTripPlan_day_plans]
    exact hall

theorem C4_no_constraint_validation_witness :
    planTrip prims0 geo0 pd0 dm0 [locA, locB, locC] veh0 consEq none = .ok c4plan ∧
      c4plan.recommended_days = 3 := by
  have hp : parseTime consEq.start_time = 540 := rfl
  have h := C4_no_constraint_validation prims0 geo0 pd0 dm0 [locA, locB, locC] veh0 consEq none
    (by decide) (by decide) (by decide)
    (by
      norm_num [calculateSchedule, schedGo, optimizeRoute, sortByPriority, insertByRank,
        priorityRank, List.enum, greedyGo, selectPos, effTime, matrixAt, priorityBonus,
        getDistanceMatrix, dm0, resp0, durToMinutes, rceil_eq, locA, locB, locC, veh0, hp])
  exact ⟨h.1, by simpa using h.2.1⟩

/-- C5 counterexample: `locCmed` is `locC` with the unset priority replaced by
an explicit `medium`; on the fixture input the planner visits the first day in
order A, B, C with `locC` but A, C, B with `locCmed`, so the two outputs are
not identical. -/
theorem C5_counterexample :
    locCmed = { locC with priority := some Priority.medium } ∧
    dayNames (planTrip prims0 geo0 pd0 dm0 [locA, locB, locC] veh0 cons0 none) =
      ["A", "B", "C"] ∧
    dayNames (planTrip prims0 geo0 pd0 dm0 [locA, locB, locCmed] veh0 cons0 none) =
      ["A", "C", "B"] ∧
    planTrip prims0 geo0 pd0 dm0 [locA, locB, locC] veh0 cons0 none ≠
      planTrip prims0 geo0 pd0 dm0 [locA, locB, locCmed] veh0 cons0 none := by
  have hp1 : parseTime "09:00" = 540 := rfl
  have hp2 : parseTime "17:00" = 1020 := rfl
  have h1 : dayNames (planTrip prims0 geo0 pd0 dm0 [locA, locB, locC] veh0 cons0 none) =
      ["A", "B", "C"] := by
    norm_num [dayNames, planTrip, resolveLocations, resolveLocation, getDistanceMatrix, dm0,
      resp0, durToMinutes, rceil_eq, optimizeRoute, sortByPriority, insertByRank, List.enum,
      priorityRank, greedyGo, selectPos, effTime, matrixAt, priorityBonus, calculateSchedule,
      schedGo, createDayPlans, createDayPlansGo, createDayPlan, generateTripPlan, hp1, hp2,
      itemNeeded, mkSegment, locA, locB, locC, cons0, veh0, geo0, pd0, prims0,
      estimateDistance, calculateHaversineDistance]
  have h2 : dayNames (planTrip prims0 geo0 pd0 dm0 [locA, locB, locCmed] veh0 cons0 none) =
      ["A", "C", "B"] := by
    norm_num [dayNames, planTrip, resolveLocations, resolveLocation, getDistanceMatrix, dm0,
      resp0, durToMinutes, rceil_eq, optimizeRoute, sortByPriority, insertByRank, List.enum,
      priorityRank, greedyGo, selectPos, effTime, matrixAt, priorityBonus, calculateSchedule,
      schedGo, createDayPlans, createDayPlansGo, createDayPlan, generateTripPlan, hp1, hp2,
      itemNeeded, mkSegment, locA, locB, locCmed, locC, cons0, veh0, geo0, pd0, prims0,
      estimateDistance, calculateHaversineDistance]
  refine ⟨rfl, h1, h2, fun h => ?_⟩
  rw [h, h2] at h1
  exact absurd h1 (by decide)

/-- C5 (amended): an unset priority is treated as `medium` (rank 2) by the
descending sort, but the greedy selection falls through to the bonus `1.0` of
`low` instead of the `0.9` of `medium`, so the two treatments of an unset
priority differ and replacing unset priorities by `medium` can change the
`planTrip` output. -/
theorem C5_default_priority_split :
    priorityRank none = priorityRank (some Priority.medium) ∧
    priorityBonus none = priorityBonus (some Priority.low) ∧
    priorityBonus none = 1 ∧
    priorityBonus (some Priority.medium) = 0.9 ∧
    priorityBonus none ≠ priorityBonus (some Priority.medium) := by
  refine ⟨rfl, rfl, by norm_num [priorityBonus], rfl, ?_⟩
  norm_num [priorityBonus]

/-- C10: on a successful provider response the matrix is the row-wise
conversion `durToMinutes`, which sends a missing or zero duration to the
999999-minute sentinel (never 0) and a nonzero duration to
`⌈duration / 60⌉` minutes. -/
theorem C10_zero_duration_sentinel (dm : DMProvider) (M : MathPrims)
    (locs : List VisitLocation) (v : Vehicle) (resp : DMResponse) (rows : List DMRow)
    (hok : dm (locs.map fun loc => loc.coordinates.getD (0, 0)) (getRouteMode v.type) =
      .ok resp)
    (hrows : resp.rows = some rows) :
    getDistanceMatrix dm M locs v =
      rows.map (fun row => row.elements.map fun e => durToMinutes e.duration) ∧
    durToMinutes none = 999999 ∧
    durToMinutes (some 0) = 999999 ∧
    ∀ d : ℚ, d ≠ 0 → durToMinutes (some d) = ⌈d / 60⌉ := by
  refine ⟨?_, rfl, rfl, ?_⟩
  · rw [getDistanceMatrix, hok]
    simp only [hrows]
  · intro d hd
    rw [durToMinutes, if_neg hd, rceil_eq]

theorem C10_zero_duration_sentinel_witness : durToMinutes none = 999999 :=
  (C10_zero_duration_sentinel dm0 prims0 [locA, locB, locC] veh0 resp0
    (resp0.rows.getD []) rfl rfl).2.1

theorem getD_map_enum {α β : Type _} (f : ℕ × α → β) (l : List α) (i : ℕ)
    (hi : i < l.length) (d : β) :
    (l.enum.map f).getD i d = f (i, l[i]) := by
  rw [List.getD_eq_getElem _ _ (by simpa [List.enum_length] using hi), List.getElem_map,
    List.getElem_enum]

theorem estimateDistanceMatrix_at (M : MathPrims) (locs : List VisitLocation)
    (v : Vehicle) (i j : ℕ) (hi : i < locs.length) (hj : j < locs.length) :
    matrixAt (estimateDistanceMatrix M locs v) i j =
      if i = j then 0
      else rceil (calculateHaversineDistance M
          (locs[i].coordinates.getD (0, 0)).1
          (locs[i].coordinates.getD (0, 0)).2
          (locs[j].coordinates.getD (0, 0)).1
          (locs[j].coordinates.getD (0, 0)).2 /
        effectiveSpeed v * 60) := by
  rw [matrixAt, estimateDistanceMatrix]
  rw [getD_map_enum _ locs i hi]
  simp only []
  rw [getD_map_enum _ locs j hj]

/-- C7: if the single distance-matrix provider call throws, `getDistanceMatrix`
falls back to the built-in estimator, which is total: an `n × n` matrix with
`0` on the diagonal and `⌈haversine / speed * 60⌉` minutes elsewhere, the
speed being the vehicle average or the mode default 40/15/5/25 km/h. -/
theorem C7_haversine_fallback (dm : DMProvider) (M : MathPrims)
    (locs : List VisitLocation) (v : Vehicle)
    (herr : dm (locs.map fun loc => loc.coordinates.getD (0, 0)) (getRouteMode v.type) =
      .error ()) :
    getDistanceMatrix dm M locs v = estimateDistanceMatrix M locs v ∧
    (estimateDistanceMatrix M locs v).length = locs.length ∧
    (∀ row ∈ estimateDistanceMatrix M locs v, row.length = locs.length) ∧
    (∀ i, i < locs.length → matrixAt (estimateDistanceMatrix M locs v) i i = 0) ∧
    (∀ i j, (hi : i < locs.length) → (hj : j < locs.length) → i ≠ j →
      matrixAt (estimateDistanceMatrix M locs v) i j =
        ⌈calculateHaversineDistance M
            (locs[i].coordinates.getD (0, 0)).1
            (locs[i].coordinates.getD (0, 0)).2
            (locs[j].coordinates.getD (0, 0)).1
            (locs[j].coordinates.getD (0, 0)).2 /
          effectiveSpeed v * 60⌉) ∧
    (v.average_speed_kmh = none → effectiveSpeed v = getDefaultSpeed v.type) ∧
    getDefaultSpeed .car = 40 ∧ getDefaultSpeed .bike = 15 ∧
    getDefaultSpeed .walking = 5 ∧ getDefaultSpeed .public_transport = 25 := by
  refine ⟨?_, ?_, ?_, ?_, ?_, ?_, rfl, rfl, rfl, rfl⟩
  · rw [getDistanceMatrix, herr]
  · rw [estimateDistanceMatrix]
    simp [List.enum_length]
  · intro row hrow
    rw [estimateDistanceMatrix] at hrow
    obtain ⟨a, _, ha⟩ := List.mem_map.mp hrow
    rw [← ha]
    simp [List.enum_length]
  · intro i hi
    rw [estimateDistanceMatrix_at M locs v i i hi hi, if_pos rfl]
  · intro i j hi hj hij
    rw [estimateDistanceMatrix_at M locs v i j hi hj, if_neg hij, rceil_eq]
  · intro hnone
    rw [effectiveSpeed, hnone]

theorem C7_haversine_fallback_witness :
    getDistanceMatrix dmErr prims0 [locA, locB] veh0 =
      estimateDistanceMatrix prims0 [locA, locB] veh0 :=
  (C7_haversine_fallback dmErr prims0 [locA, locB] veh0 rfl).1

theorem resolveLocations_first_error (g : GeoProvider) (p : PDProvider) :
    ∀ (pre : List VisitLocation) (post : List VisitLocation) (loc : VisitLocation)
      (e : String), resolveLocation g p loc = .error e →
      (∀ x ∈ pre, ∃ rx, resolveLocation g p x = .ok rx) →
      resolveLocations g p (pre ++ loc :: post) = .error e
  | [], post, loc, e, herr, _ => by
    rw [List.nil_append, resolveLocations, herr]
  | x :: xs, post, loc, e, herr, hok => by
    obtain ⟨rx, hrx⟩ := hok x (by simp)
    rw [List.cons_append, resolveLocations, hrx,
      resolveLocations_first_error g p xs post loc e herr
        fun y hy => hok y (List.mem_cons_of_mem x hy)]

/-- C8: location resolution uses, in order, the explicit coordinates, the
first geocoding result for the address, and the place-details coordinate for
the `place_id`; when none yields a coordinate it fails with an error naming
the location, and inside `planTrip` the first unresolved location aborts the
whole run with that fatal error (strict policy), whatever follows it. -/
theorem C8_resolution_order (g : GeoProvider) (p : PDProvider) :
    (∀ loc : VisitLocation, loc.coordinates.isSome →
      resolveLocation g p loc = .ok loc) ∧
    (∀ (loc : VisitLocation) (addr : String) (r : ℚ × ℚ) (tl : List (ℚ × ℚ)),
      loc.coordinates = none → loc.address = some addr → g addr = .ok (some (r :: tl)) →
      resolveLocation g p loc = .ok { loc with coordinates := some r }) ∧
    (∀ (loc : VisitLocation) (pid : String) (r : ℚ × ℚ),
      loc.coordinates = none → geoFails g loc → loc.place_id = some pid →
      p pid = .ok (some r) →
      resolveLocation g p loc = .ok { loc with coordinates := some r }) ∧
    (∀ loc : VisitLocation, loc.coordinates = none → geoFails g loc → pdFails p loc →
      resolveLocation g p loc =
        .error ("Could not resolve coordinates for location: " ++ loc.name)) ∧
    (∀ (M : MathPrims) (dm : DMProvider) (v : Vehicle) (c : TripConstraints)
      (date : Option String) (pre post : List VisitLocation) (loc : VisitLocation)
      (e : String),
      resolveLocation g p loc = .error e →
      (∀ x ∈ pre, ∃ rx, resolveLocation g p x = .ok rx) →
      planTrip M g p dm (pre ++ loc :: post) v c date =
        .error ("Route planning failed: " ++ e)) := by
  refine ⟨?_, ?_, ?_, ?_, ?_⟩
  · exact resolveLocation_of_coords g p
  · intro loc addr r tl hc haddr hg
    rw [resolveLocation]
    simp only [hc, haddr, geoLookup, hg]
  · intro loc pid r hc hgf hpid hp
    rw [resolveLocation]
    have hc1 : (match loc.coordinates, loc.address with
        | none, some addr => geoLookup g addr
        | _, _ => loc.coordinates) = none := by
      rw [hc]
      cases haddr : loc.address with
      | none => rfl
      | some addr => exact hgf addr haddr
    simp only [hc1, hpid, pdLookup, hp]
  · intro loc hc hgf hpf
    rw [resolveLocation]
    have hc1 : (match loc.coordinates, loc.address with
        | none, some addr => geoLookup g addr
        | _, _ => loc.coordinates) = none := by
      rw [hc]
      cases haddr : loc.address with
      | none => rfl
      | some addr => exact hgf addr haddr
    have hc2 : (match (none : Option (ℚ × ℚ)), loc.place_id with
        | none, some pid => pdLookup p pid
        | _, _ => (none : Option (ℚ × ℚ))) = none := by
      cases hpid : loc.place_id with
      | none => rfl
      | some pid => exact hpf pid hpid
    simp only [hc1, hc2]
  · intro M dm v c date pre post loc e herr hok
    exact planTrip_error M g p dm (pre ++ loc :: post) v c date e
      (resolveLocations_first_error g p pre post loc e herr hok)

theorem C8_resolution_order_witness :
    resolveLocation geo0 pd0
        { name := "X", visit_duration_minutes := 5 } =
      .error "Could not resolve coordinates for location: X" :=
  (C8_resolution_order geo0 pd0).2.2.2.1
    { name := "X", visit_duration_minutes := 5 } rfl (fun addr h => by simp at h)
    (fun pid h => by simp at h)

/-- C6: the schedule is computed on plain minutes-since-midnight integers:
the first stop arrives at `constraints.start_time` with zero travel time, each
later stop `i` arrives at the previous departure plus `matrix[i-1][i]` (the
positions in the optimized list, which is how the source's
`locations.indexOf` lookups resolve) and departs after its visit duration;
`calculateSchedule` only formats these integers, and `formatTime` keeps hours
at or past 24 as plain overflow values (hour 25), never reducing modulo 24
hours. -/
theorem C6_schedule_arithmetic (locs : List VisitLocation) (m : List (List ℤ))
    (c : TripConstraints) :
    (∀ (loc : VisitLocation) (rest : List VisitLocation) (d : VisitLocation × ℤ × ℤ × ℤ),
      (schedGo m (loc :: rest) 0 (parseTime c.start_time : ℤ)).getD 0 d =
        (loc, (parseTime c.start_time : ℤ),
          (parseTime c.start_time : ℤ) + (loc.visit_duration_minutes : ℤ), 0)) ∧
    (∀ (k : ℕ) (d : VisitLocation × ℤ × ℤ × ℤ), k < locs.length →
      ((schedGo m locs 0 (parseTime c.start_time : ℤ)).getD k d).2.2.1 =
        ((schedGo m locs 0 (parseTime c.start_time : ℤ)).getD k d).2.1 +
          ((((schedGo m locs 0 (parseTime c.start_time : ℤ)).getD k d).1).visit_duration_minutes :
            ℤ)) ∧
    (∀ (k : ℕ) (d : VisitLocation × ℤ × ℤ × ℤ), k + 1 < locs.length →
      (((schedGo m locs 0 (parseTime c.start_time : ℤ)).getD (k + 1) d).2.2.2 =
        matrixAt m k (k + 1)) ∧
      ((schedGo m locs 0 (parseTime c.start_time : ℤ)).getD (k + 1) d).2.1 =
        ((schedGo m locs 0 (parseTime c.start_time : ℤ)).getD k d).2.2.1 +
          matrixAt m k (k + 1)) ∧
    (∀ (k : ℕ) (d : VisitLocation × ℤ × ℤ × ℤ),
      (calculateSchedule locs m c).getD k
          { location := d.1, arrival := formatTime d.2.1, departure := formatTime d.2.2.1,
            travel_time := d.2.2.2 } =
        { location := ((schedGo m locs 0 (parseTime c.start_time : ℤ)).getD k d).1,
          arrival := formatTime ((schedGo m locs 0 (parseTime c.start_time : ℤ)).getD k d).2.1,
          departure :=
            formatTime ((schedGo m locs 0 (parseTime c.start_time : ℤ)).getD k d).2.2.1,
          travel_time := ((schedGo m locs 0 (parseTime c.start_time : ℤ)).getD k d).2.2.2 }) ∧
    formatTime 1500 = "25:00" ∧
    formatTime (1500 % (24 * 60)) = "01:00" ∧
    formatTime 1500 ≠ formatTime (1500 % (24 * 60)) := by
  refine ⟨?_, ?_, ?_, ?_, by decide, by decide, by decide⟩
  · intro loc rest d
    exact schedGo_getD_zero m loc rest _ d
  · intro k d hk
    exact schedGo_dep_arr m locs 0 _ k hk d
  · intro k d hk
    have h := schedGo_step m locs 0 (parseTime c.start_time : ℤ) k hk d
    simpa using h
  · intro k d
    rw [calculateSchedule]
    exact getD_map _ (schedGo m locs 0 (parseTime c.start_time : ℤ)) k d

theorem C6_schedule_arithmetic_witness :
    ((schedGo mC9 [locA, locB] 0 (parseTime cons0.start_time : ℤ)).getD 1 default).2.2.2 =
      matrixAt mC9 0 1 :=
  ((C6_schedule_arithmetic [locA, locB] mC9 cons0).2.2.1 0 default (by decide)).1

/-- C2: the day splitter admits schedule stops in order; before admitting a
stop whose `travel + visit` time would overflow the daily window while the day
already holds a location, it closes the day as a `DayPlan` and starts a new
day with the accumulated time reset to 0; a stop exceeding the window on its
own is still admitted into the empty day, which becomes a single-stop
infeasible `DayPlan` whose issue string names the overflow in minutes and
whose suggestion asks to shorten visits or split further — no stop is ever
dropped; and every `RouteSegment` of a `DayPlan` joins the plan's `i`-th
location to its `(i+1)`-th. -/
theorem C2_day_splitting :
    (∀ (M : MathPrims) (maxDay : ℤ) (c : TripConstraints) (date : Option String)
      (item : SchedItem) (rest : List SchedItem) (day : ℕ) (locs : List VisitLocation)
      (segs : List RouteSegment) (time : ℤ) (dist : ℚ) (prev : String),
      maxDay < time + itemNeeded item → locs.length > 0 →
      createDayPlansGo M maxDay c date (item :: rest) day locs segs time dist prev =
        createDayPlan M day locs segs dist time c date ::
          createDayPlansGo M maxDay c date rest (day + 1) [item.location] []
            (itemNeeded item) 0 item.departure) ∧
    (∀ (M : MathPrims) (sched : List SchedItem) (c : TripConstraints) (date : Option String),
      (createDayPlans M sched c date).flatMap DayPlan.locations =
        sched.map SchedItem.location) ∧
    (∀ (M : MathPrims) (item : SchedItem) (rest : List SchedItem) (c : TripConstraints)
      (date : Option String),
      (parseTime c.end_time : ℤ) - (parseTime c.start_time : ℤ) < itemNeeded item →
      (∀ it ∈ rest, 0 ≤ itemNeeded it) →
      c.max_total_distance_km = none →
      (createDayPlans M (item :: rest) c date).head? =
        some (createDayPlan M 1 [item.location] [] 0 (itemNeeded item) c date) ∧
      (createDayPlan M 1 [item.location] [] 0 (itemNeeded item) c date).locations =
        [item.location] ∧
      (createDayPlan M 1 [item.location] [] 0 (itemNeeded item) c date).feasible = false ∧
      (createDayPlan M 1 [item.location] [] 0 (itemNeeded item) c date).issues =
        some ["Day exceeds time limit by " ++
          toString (itemNeeded item -
            ((parseTime c.end_time : ℤ) - (parseTime c.start_time : ℤ))) ++ " minutes"] ∧
      (createDayPlan M 1 [item.location] [] 0 (itemNeeded item) c date).suggestions =
        some ["Consider reducing visit durations or splitting into more days"]) ∧
    (∀ (M : MathPrims) (sched : List SchedItem) (c : TripConstraints) (date : Option String),
      ∀ plan ∈ createDayPlans M sched c date,
        plan.route_segments.map RouteSegment.from_loc = plan.locations.dropLast ∧
          plan.route_segments.map RouteSegment.to_loc = plan.locations.tail) := by
  refine ⟨?_, createDayPlans_flatten, ?_, createDayPlans_chain⟩
  · intro M maxDay c date item rest day locs segs time dist prev h1 h2
    exact createDayPlansGo_close M maxDay c date item rest day locs segs time dist prev ⟨h1, h2⟩
  · intro M item rest c date hover hrest hmd
    have hhead : (createDayPlans M (item :: rest) c date).head? =
        some (createDayPlan M 1 [item.location] [] 0 (itemNeeded item) c date) := by
      rw [createDayPlans]
      exact createDayPlansGo_overlong M _ c date item rest 1 "" hover hrest
    have hinf := createDayPlan_infeasible_fields M 1 [item.location] [] 0 (itemNeeded item)
      c date (by omega) hmd
    exact ⟨hhead, createDayPlan_locations M 1 [item.location] [] 0 (itemNeeded item) c date,
      hinf.1, hinf.2.1, hinf.2.2⟩

theorem C2_day_splitting_witness :
    (createDayPlans prims0 [item600] cons0 none).head? =
      some (createDayPlan prims0 1 [item600.location] [] 0 (itemNeeded item600) cons0 none) ∧
    (createDayPlan prims0 1 [item600.location] [] 0 (itemNeeded item600) cons0
      none).feasible = false := by
  have h := C2_day_splitting.2.2.1 prims0 item600 [] cons0 none (by decide)
    (by intro it hit; simp at hit) rfl
  exact ⟨h.1, h.2.2.1⟩

theorem priorityBonus_bounds (o : Option Priority) :
    (0.8 : ℚ) ≤ priorityBonus o ∧ priorityBonus o ≤ 1 := by
  cases o with
  | none => constructor <;> norm_num [priorityBonus]
  | some pr => cases pr <;> constructor <;> norm_num [priorityBonus]

theorem priorityRank_eq_three (o : Option Priority) (h : 3 ≤ priorityRank o) :
    o = some Priority.high := by
  cases o with
  | none => simp [priorityRank] at h
  | some pr => cases pr <;> simp_all [priorityRank]

/-- C3: `optimizeRoute` stably sorts the indexed locations descending by
priority rank (ties keep input order), seeds the route with the first element
after the sort, and each greedy step appends the unvisited candidate at the
position of the leftmost minimizer of `travel_time * priority_bonus` (so ties
are broken by list order), with rank table high 3 / medium 2 / low 1 and bonus
table high 0.8 / medium 0.9 / low 1.0 for explicit priorities. -/
theorem C3_greedy_optimizer (locs : List VisitLocation) (m : List (List ℤ))
    (c : TripConstraints) :
    (sortByPriority locs.enum).Perm locs.enum ∧
    (sortByPriority locs.enum).Pairwise StableRel ∧
    (optimizeRoute locs m c).head? = ((sortByPriority locs.enum).head?.map Prod.snd) ∧
    (∀ (cur : ℕ) (x : ℕ × VisitLocation) (xs : List (ℕ × VisitLocation)),
      greedyGo m cur (x :: xs) =
        (x :: xs).getD (selectPos (effTime m cur) (x :: xs)) x ::
          greedyGo m ((x :: xs).getD (selectPos (effTime m cur) (x :: xs)) x).1
            ((x :: xs).eraseIdx (selectPos (effTime m cur) (x :: xs)))) ∧
    (∀ (cur : ℕ) (l : List (ℕ × VisitLocation)) (d : ℕ × VisitLocation),
      ∀ y ∈ l, effTime m cur (l.getD (selectPos (effTime m cur) l) d) ≤ effTime m cur y) ∧
    (∀ (cur : ℕ) (l : List (ℕ × VisitLocation)) (d : ℕ × VisitLocation) (j : ℕ),
      j < selectPos (effTime m cur) l →
      effTime m cur (l.getD (selectPos (effTime m cur) l) d) < effTime m cur (l.getD j d)) ∧
    (∀ (cur : ℕ) (cand : ℕ × VisitLocation),
      effTime m cur cand = (matrixAt m cur cand.1 : ℚ) * priorityBonus cand.2.priority) ∧
    (priorityRank (some Priority.high) = 3 ∧ priorityRank (some Priority.medium) = 2 ∧
      priorityRank (some Priority.low) = 1) ∧
    (priorityBonus (some Priority.high) = 0.8 ∧ priorityBonus (some Priority.medium) = 0.9 ∧
      priorityBonus (some Priority.low) = 1.0) := by
  refine ⟨sortByPriority_perm locs.enum,
    sortByPriority_pairwise locs.enum (enum_pairwise locs), ?_, ?_, ?_, ?_,
    fun cur cand => rfl, ⟨rfl, rfl, rfl⟩, ⟨rfl, rfl, rfl⟩⟩
  · rw [optimizeRoute]
    split
    · next heq => rw [heq]; rfl
    · next x rest heq => rw [heq]; rfl
  · intro cur x xs
    rw [greedyGo]
  · intro cur l d y hy
    exact selectPos_min (effTime m cur) l d y hy
  · intro cur l d j hj
    exact selectPos_leftmost (effTime m cur) l d j hj

theorem C3_greedy_optimizer_witness :
    effTime mC9 0 ([(1, locB), (2, locC)].getD
        (selectPos (effTime mC9 0) [(1, locB), (2, locC)]) (1, locB)) ≤
      effTime mC9 0 (2, locC) :=
  (C3_greedy_optimizer [locA, locB, locC] mC9 cons0).2.2.2.2.1 0 [(1, locB), (2, locC)]
    (1, locB) (2, locC) (by simp)

/-- C9 counterexample: three high-priority locations where the travel times
from the seed to the two candidates are exactly equal; the tie is broken by
list order, so the later candidate is scheduled after a same-priority
candidate of equal travel cost, refuting the unrestricted claim. -/
theorem C9_counterexample :
    locBh.priority = some Priority.high ∧ locCh.priority = some Priority.high ∧
    matrixAt mC9 0 1 = matrixAt mC9 0 2 ∧
    optimizeRoute [locA, locBh, locCh] mC9 cons0 = [locA, locBh, locCh] := by
  refine ⟨rfl, rfl, rfl, ?_⟩
  norm_num [optimizeRoute, sortByPriority, insertByRank, priorityRank, List.enum, greedyGo,
    selectPos, effTime, matrixAt, priorityBonus, locA, locBh, locCh, mC9]

/-- C9 (amended): every greedy selection step operates on an unvisited list
sorted descending by priority rank (the initial sort produces one, and
removing the selected element preserves it); at such a step, if a candidate
`c` with travel time equal or greater than a high-priority candidate `h` is
selected instead of `h`, then `c` is itself high-priority, at exactly equal
travel time, and earlier in the list — so `h` is selected before every
strictly-lower-priority candidate of equal-or-greater cost and before every
candidate of strictly greater cost, and exact high-high ties fall to the
earlier list position. -/
theorem C9_priority_bias :
    (∀ locs : List VisitLocation, (sortByPriority locs.enum).Pairwise
      (fun a b => priorityRank b.2.priority ≤ priorityRank a.2.priority)) ∧
    (∀ (l : List (ℕ × VisitLocation)) (k : ℕ),
      l.Pairwise (fun a b => priorityRank b.2.priority ≤ priorityRank a.2.priority) →
      (l.eraseIdx k).Pairwise
        (fun a b => priorityRank b.2.priority ≤ priorityRank a.2.priority)) ∧
    (∀ (m : List (List ℤ)) (cur : ℕ) (l : List (ℕ × VisitLocation))
      (d : ℕ × VisitLocation) (ih ic : ℕ),
      l.Pairwise (fun a b => priorityRank b.2.priority ≤ priorityRank a.2.priority) →
      ih < l.length → ic < l.length → ic ≠ ih →
      (l.getD ih d).2.priority = some Priority.high →
      matrixAt m cur (l.getD ih d).1 ≤ matrixAt m cur (l.getD ic d).1 →
      0 ≤ matrixAt m cur (l.getD ih d).1 →
      selectPos (effTime m cur) l = ic →
      (l.getD ic d).2.priority = some Priority.high ∧
        matrixAt m cur (l.getD ic d).1 = matrixAt m cur (l.getD ih d).1 ∧ ic < ih) := by
  refine ⟨?_, ?_, ?_⟩
  · intro locs
    refine (sortByPriority_pairwise locs.enum (enum_pairwise locs)).imp ?_
    intro a b hab
    rcases hab with h | ⟨h, _⟩
    · exact le_of_lt h
    · exact le_of_eq h
  · intro l k hl
    exact hl.sublist (List.eraseIdx_sublist l k)
  · intro m cur l d ih ic hsort hih hic hne hhigh htt h0 hsel
    have htc0 : (0 : ℤ) ≤ matrixAt m cur (l.getD ic d).1 := le_trans h0 htt
    have heffh : effTime m cur (l.getD ih d) =
        (matrixAt m cur (l.getD ih d).1 : ℚ) * 0.8 := by
      rw [effTime, hhigh]
      rfl
    have h1 : effTime m cur (l.getD ih d) ≤ effTime m cur (l.getD ic d) := by
      rw [heffh, effTime]
      calc (matrixAt m cur (l.getD ih d).1 : ℚ) * 0.8
          ≤ (matrixAt m cur (l.getD ic d).1 : ℚ) * 0.8 := by
            apply mul_le_mul_of_nonneg_right _ (by norm_num)
            exact_mod_cast htt
        _ ≤ (matrixAt m cur (l.getD ic d).1 : ℚ) *
              priorityBonus (l.getD ic d).2.priority := by
            apply mul_le_mul_of_nonneg_left (priorityBonus_bounds _).1
            exact_mod_cast htc0
    have hmem : l.getD ih d ∈ l := by
      rw [List.getD_eq_getElem _ _ hih]
      exact List.getElem_mem hih
    have h2 : effTime m cur (l.getD ic d) ≤ effTime m cur (l.getD ih d) := by
      have := selectPos_min (effTime m cur) l d (l.getD ih d) hmem
      rw [hsel] at this
      exact this
    have heq : effTime m cur (l.getD ic d) = effTime m cur (l.getD ih d) :=
      le_antisymm h2 h1
    have hlt : ic < ih := by
      by_contra hcon
      have hihlt : ih < ic := by omega
      have hstrict := selectPos_leftmost (effTime m cur) l d ih (hsel ▸ hihlt)
      rw [hsel] at hstrict
      exact (ne_of_lt hstrict) heq
    have hrank : priorityRank (l.getD ih d).2.priority ≤
        priorityRank (l.getD ic d).2.priority := by
      have hp := List.pairwise_iff_getElem.mp hsort ic ih hic hih hlt
      rw [List.getD_eq_getElem _ _ hih, List.getD_eq_getElem _ _ hic]
      exact hp
    have hch : (l.getD ic d).2.priority = some Priority.high := by
      apply priorityRank_eq_three
      rw [hhigh] at hrank
      exact hrank
    refine ⟨hch, ?_, hlt⟩
    have heq2 : (matrixAt m cur (l.getD ic d).1 : ℚ) * 0.8 =
        (matrixAt m cur (l.getD ih d).1 : ℚ) * 0.8 := by
      have : effTime m cur (l.getD ic d) =
          (matrixAt m cur (l.getD ic d).1 : ℚ) * 0.8 := by
        rw [effTime, hch]
        rfl
      rw [← this, heq, heffh]
    have := mul_right_cancel₀ (by norm_num : (0.8 : ℚ) ≠ 0) heq2
    exact_mod_cast this

theorem C9_priority_bias_witness :
    ([(1, locBh), (2, locCh)].getD 0 (0, locA)).2.priority = some Priority.high ∧
      matrixAt mC9 0 (([(1, locBh), (2, locCh)].getD 0 (0, locA)).1) =
        matrixAt mC9 0 (([(1, locBh), (2, locCh)].getD 1 (0, locA)).1) ∧ (0 : ℕ) < 1 :=
  C9_priority_bias.2.2 mC9 0 [(1, locBh), (2, locCh)] (0, locA) 1 0
    (by simp [List.pairwise_cons, priorityRank, locBh, locCh]) (by simp) (by simp)
    (by simp) rfl (by decide) (by decide)
    (by norm_num [selectPos, effTime, matrixAt, priorityBonus, mC9, locBh, locCh])

end OlaMap
